import Mathlib

/-!
# Screenie: the scene/controller synchronisation core (ScreenieControl.cpp)

A shallow embedding of `ScreenieControl` and of the parts of its collaborators
it drives.

* Coordinates (`qreal`) are rationals.  The position computations come twice: in
  exact arithmetic (`calculateItemPosition`, `calculateItemPositionAt` and what is
  built on them), and as the code evaluates them, every operation rounded to IEEE
  754 double (`roundToDouble` and the definitions whose name ends in `Double`).
* Object identity (a C++ pointer) is a natural number: the `ref` of a model, the
  `screenieModel` back-reference of an item.  An item itself is identified by its
  slot in the item list of the graphics scene.
* The controller's state is `ScreenieControlPrivate`; a slot or handler is a
  function from state to state.  A signal wired by `frenchConnection` is the call
  of the connected handler at the place where the signal is emitted.
* The model classes, `ScreenieScene` and `SizeFitter` are not among the sources;
  what the controller uses of them is modelled from the specification.  The image
  decoder, `SizeFitter::fit` and `TemplateOrganizer::getOrderedTemplates` are
  parameters (`Collaborators`).
* The quality timer is a single-shot deadline on a discrete clock; `processEvents`
  is the event loop running up to a given time.
-/

namespace Screenie

/-! ## Qt value types -/

/-- QPointF: a point with `qreal` coordinates, taken in exact arithmetic. -/
structure QPointF where
  x : ℚ
  y : ℚ
deriving DecidableEq

/-- QSize: integer width and height. -/
structure QSize where
  width : Int
  height : Int
deriving DecidableEq

/-- QSize::isEmpty: either dimension is zero or negative. -/
def QSize.isEmpty (s : QSize) : Bool := decide (s.width ≤ 0) || decide (s.height ≤ 0)

/-- QPixmap: only what the controller observes, the null flag and the size;
`cacheKey` stands for the pixel content. -/
structure QPixmap where
  isNull : Bool
  size : QSize
  cacheKey : Nat
deriving DecidableEq

/-- The default-constructed (null) pixmap `QPixmap()`. -/
def QPixmap.null : QPixmap := ⟨true, ⟨0, 0⟩, 0⟩

/-- QPixmap::scaled(size, IgnoreAspectRatio, SmoothTransformation): a null
pixmap or an empty size gives a null pixmap, otherwise a pixmap of that size. -/
def QPixmap.scaled (p : QPixmap) (size : QSize) : QPixmap :=
  if p.isNull || size.isEmpty then QPixmap.null else { p with size := size }

/-- QColor as its red, green and blue components. -/
structure QColor where
  red : Int
  green : Int
  blue : Int
deriving DecidableEq

/-- QBrush: no brush, a solid colour, or the checker pattern texture. -/
inductive QBrush where
  | noBrush
  | solid (color : QColor)
  | checkerPattern
deriving DecidableEq

/-- Qt::TransformationMode. -/
inductive TransformationMode where
  | FastTransformation
  | SmoothTransformation
deriving DecidableEq

/-- QPainter::NonCosmeticDefaultPen (0x10). -/
def NonCosmeticDefaultPen : Nat := 16

/-- QPainter::Antialiasing (0x01). -/
def Antialiasing : Nat := 1

/-- QPainter::SmoothPixmapTransform (0x04). -/
def SmoothPixmapTransform : Nat := 4

/-! ## Models -/

/-- Modelled from the spec: SizeFitter (Utils/src/SizeFitter.h is not part of
the sources at hand).  A fitter is a target footprint and a policy; what
`fit` computes is supplied by `Collaborators.fit`. -/
structure SizeFitter where
  targetSize : QSize
  fitMode : Nat
deriving DecidableEq

/-- Modelled from the spec: the three variants of a placed-item model,
ScreenieFilePathModel (a path, and the size fitter it was constructed with, if
any), ScreeniePixmapModel and ScreenieTemplateModel (a fixed size and a fitter). -/
inductive ModelKind where
  | filePath (filePath : String) (sizeFitter : Option SizeFitter)
  | pixmap (pixmap : QPixmap)
  | template (size : QSize) (sizeFitter : SizeFitter)
deriving DecidableEq

/-- Modelled from the spec: a placed-item model (ScreenieModelInterface and
its three implementations are not part of the sources at hand): its address
`ref`, its variant, and the common attributes position, rotation, distance
and the reflection parameters. -/
structure ScreenieModel where
  ref : Nat
  kind : ModelKind
  position : QPointF
  rotation : Int
  distance : Int
  reflectionEnabled : Bool
  reflectionOffset : Int
  reflectionOpacity : Int
deriving DecidableEq

/-- DefaultScreenieModel: the current default attribute values. -/
structure DefaultScreenieModel where
  distance : Int
  rotation : Int
  reflectionEnabled : Bool
  reflectionOffset : Int
  reflectionOpacity : Int
deriving DecidableEq

/-- Modelled from the spec: ScreenieScene (Model/src/ScreenieScene.h is not
part of the sources at hand): the ordered collection of models and the
background attributes. -/
structure ScreenieScene where
  models : List ScreenieModel
  backgroundEnabled : Bool
  backgroundColor : QColor
deriving DecidableEq

/-- What is outside the controller and fixed during a run: the image decoder
(the intrinsic size of the image a path decodes to), SizeFitter::fit
(`some fitted` when a resize is needed), the transformation mode a freshly
constructed ScreeniePixmapItem has, and TemplateOrganizer::getOrderedTemplates. -/
structure Collaborators where
  imageSize : String → QSize
  fit : SizeFitter → QSize → Option QSize
  newItemTransformationMode : TransformationMode
  getOrderedTemplates : ScreenieScene → List ScreenieModel

/-! ## The graphics scene -/

/-- A QGraphicsItem in the ScreenieGraphicsScene.  `isScreeniePixmapItem`
is `type() == ScreeniePixmapItem::ScreeniePixmapType`; for such an item
`screenieModel` is the address of the model returned by `getScreenieModel()`. -/
structure GraphicsItem where
  isScreeniePixmapItem : Bool
  screenieModel : Nat
  pos : QPointF
  selected : Bool
  zValue : Int
  transformationMode : TransformationMode
deriving DecidableEq

/-- ScreenieGraphicsScene: its items (in the order `items()` lists them), the
render hints of each attached view, and the background brush. -/
structure ScreenieGraphicsScene where
  items : List GraphicsItem
  views : List Nat
  backgroundBrush : QBrush
deriving DecidableEq

/-- QTimer, single shot (the constructor calls `setSingleShot(true)`): the
interval, the current time of the event loop the timer lives in, and the
pending deadline, if the timer is running. -/
structure QTimer where
  interval : Nat
  now : Nat
  deadline : Option Nat
deriving DecidableEq

/-- QTimer::start(): the timer runs for `interval` from now on; a pending
deadline is replaced. -/
def QTimer.start (t : QTimer) : QTimer := { t with deadline := some (t.now + t.interval) }

/-- ScreenieControlPrivate: the controller's state. The reflection helper
carries no state and is left out. -/
structure ScreenieControlPrivate where
  screenieScene : ScreenieScene
  screenieGraphicsScene : ScreenieGraphicsScene
  checkerBoardBrush : QBrush
  qualityTimer : QTimer
  defaultScreenieModel : DefaultScreenieModel
deriving DecidableEq

/-- ScreenieControl::RenderQuality. -/
inductive RenderQuality where
  | Low
  | High
deriving DecidableEq

/-! ## Model accessors -/

/-- Modelled from the spec: `getSize()` of the three variants.  A file-path
model has the size of the decoded image, rescaled by its fitter when it has
one and the fitter asks for a resize; a pixmap model has the size of its
pixmap; a template has its fixed size. -/
def ScreenieModel.getSize (env : Collaborators) (m : ScreenieModel) : QSize :=
  match m.kind with
  | .filePath filePath none => env.imageSize filePath
  | .filePath filePath (some sizeFitter) =>
      match env.fit sizeFitter (env.imageSize filePath) with
      | some fittedSize => fittedSize
      | none => env.imageSize filePath
  | .pixmap pixmap => pixmap.size
  | .template size _ => size

/-- The test `inherits(ScreeniePixmapModel::staticMetaObject.className())`. -/
def ScreenieModel.isPixmapModel (m : ScreenieModel) : Bool :=
  match m.kind with
  | .pixmap _ => true
  | _ => false

/-- The test `inherits(ScreenieFilePathModel::staticMetaObject.className())`. -/
def ScreenieModel.isFilePathModel (m : ScreenieModel) : Bool :=
  match m.kind with
  | .filePath _ _ => true
  | _ => false

/-- The test `inherits(ScreenieTemplateModel::staticMetaObject.className())`. -/
def ScreenieModel.isTemplateModel (m : ScreenieModel) : Bool :=
  match m.kind with
  | .template _ _ => true
  | _ => false

/-- The geometric centre of a box of the given size at the given position. -/
def boxCenter (position : QPointF) (size : QSize) : QPointF :=
  ⟨position.x + (size.width : ℚ) / 2, position.y + (size.height : ℚ) / 2⟩

/-- The geometric centre of a model's bounding box. -/
def ScreenieModel.center (env : Collaborators) (m : ScreenieModel) : QPointF :=
  boxCenter m.position (m.getSize env)

/-! ## Geometry (ScreenieControl.cpp, lines 424-453) -/

/-- ScreenieControl::calculateItemPosition(const ScreenieModelInterface &, const QPointF &)
(lines 424-431), read in exact arithmetic; `calculateItemPositionAtDouble` is the
same expression as the code evaluates it, in double. -/
def calculateItemPositionAt (env : Collaborators) (screenieModel : ScreenieModel)
    (centerPosition : QPointF) : QPointF :=
  let itemSize := screenieModel.getSize env
  ⟨centerPosition.x - (itemSize.width : ℚ) / 2, centerPosition.y - (itemSize.height : ℚ) / 2⟩

/-- ScreenieControl::calculateItemPosition(const QPointF &, const QSize &, const QSize &)
(lines 447-453), read in exact arithmetic; `calculateItemPositionDouble` is the same
expression as the code evaluates it, in double. -/
def calculateItemPosition (sourcePosition : QPointF) (sourceSize targetSize : QSize) : QPointF :=
  ⟨sourcePosition.x + (sourceSize.width : ℚ) / 2 - (targetSize.width : ℚ) / 2,
   sourcePosition.y + (sourceSize.height : ℚ) / 2 - (targetSize.height : ℚ) / 2⟩

/-! ## Sorting (QtAlgorithms) -/

/-- Insert `a` into a sorted list, after the elements strictly less than it. -/
def qSortInsert {α : Type} (lessThan : α → α → Bool) (a : α) : List α → List α
  | [] => [a]
  | b :: l => if lessThan b a then b :: qSortInsert lessThan a l else a :: b :: l

/-- Modelled from the spec: `::qSort(begin, end, lessThan)` of QtAlgorithms,
as the stable sort the spec describes (an insertion sort). -/
def qSort {α : Type} (lessThan : α → α → Bool) : List α → List α
  | [] => []
  | a :: l => qSortInsert lessThan a (qSort lessThan l)

/-! ## Dereferencing a back-reference -/

/-- The model at address `ref` in the scene, if there is one. -/
def ScreenieScene.modelAt (scene : ScreenieScene) (ref : Nat) : Option ScreenieModel :=
  scene.models.find? (fun m => m.ref == ref)

/-- The value of `item->getScreenieModel().getDistance()`; a back-reference to no
model of the scene (a dangling reference in C++) reads as 0. -/
def itemDistance (scene : ScreenieScene) (item : GraphicsItem) : Int :=
  match scene.modelAt item.screenieModel with
  | some m => m.distance
  | none => 0

/-- Function zSort (lines 55-59): closer items come first in the sorted list. -/
def zSort (scene : ScreenieScene) (item1 item2 : GraphicsItem) : Bool :=
  decide (itemDistance scene item1 > itemDistance scene item2)

/-! ## ScreenieControl: queries -/

/-- ScreenieControl::getSelectedScreenieModels (lines 102-112): the addresses of the
models of the selected ScreeniePixmapItems. -/
def getSelectedScreenieModels (d : ScreenieControlPrivate) : List Nat :=
  ((d.screenieGraphicsScene.items.filter (fun item => item.selected)).filter
    (fun selectedItem => selectedItem.isScreeniePixmapItem)).map (fun item => item.screenieModel)

/-- ScreenieControl::getScreeniePixmapItems (lines 379-389). -/
def getScreeniePixmapItems (d : ScreenieControlPrivate) : List GraphicsItem :=
  d.screenieGraphicsScene.items.filter (fun item => item.isScreeniePixmapItem)

/-- ScreenieControl::setRenderQuality (lines 391-413). -/
def setRenderQuality (renderQuality : RenderQuality) (d : ScreenieControlPrivate) :
    ScreenieControlPrivate :=
  match renderQuality with
  | .Low =>
      { d with
        screenieGraphicsScene.items := d.screenieGraphicsScene.items.map (fun item =>
          if item.isScreeniePixmapItem then
            { item with transformationMode := .FastTransformation } else item)
        screenieGraphicsScene.views :=
          d.screenieGraphicsScene.views.map (fun _ => NonCosmeticDefaultPen) }
  | .High =>
      { d with
        screenieGraphicsScene.items := d.screenieGraphicsScene.items.map (fun item =>
          if item.isScreeniePixmapItem then
            { item with transformationMode := .SmoothTransformation } else item)
        screenieGraphicsScene.views :=
          d.screenieGraphicsScene.views.map (fun _ => Antialiasing ||| SmoothPixmapTransform) }

/-- ScreenieControl::restoreRenderQuality (lines 602-605). -/
def restoreRenderQuality (d : ScreenieControlPrivate) : ScreenieControlPrivate :=
  setRenderQuality .High d

/-- ScreenieControl::applyDefaultValues (lines 415-422). -/
def applyDefaultValues (d : ScreenieControlPrivate) (screenieModel : ScreenieModel) :
    ScreenieModel :=
  { screenieModel with
    distance := d.defaultScreenieModel.distance
    rotation := d.defaultScreenieModel.rotation
    reflectionEnabled := d.defaultScreenieModel.reflectionEnabled
    reflectionOffset := d.defaultScreenieModel.reflectionOffset
    reflectionOpacity := d.defaultScreenieModel.reflectionOpacity }

/-! ## ScreenieControl: reaction handlers -/

/-- QGraphicsItem::setZValue on the item in the given slot of the item list. -/
def setZValueAt : Nat → Int → List GraphicsItem → List GraphicsItem
  | _, _, [] => []
  | 0, z, item :: items => { item with zValue := z } :: items
  | slot + 1, z, item :: items => item :: setZValueAt slot z items

/-- The loop `foreach (item, screeniePixmapItems) item->setZValue(z++)` of
handleDistanceChanged; an item pointer is the slot of the item in the scene. -/
def assignZValues : List (Nat × GraphicsItem) → Int → List GraphicsItem → List GraphicsItem
  | [], _, items => items
  | (slot, _) :: rest, z, items => assignZValues rest (z + 1) (setZValueAt slot z items)

/-- ScreenieControl::handleDistanceChanged (lines 547-561), for a given sort routine. -/
def handleDistanceChangedWith
    (sort : ((Nat × GraphicsItem) → (Nat × GraphicsItem) → Bool) →
      List (Nat × GraphicsItem) → List (Nat × GraphicsItem))
    (d : ScreenieControlPrivate) : ScreenieControlPrivate :=
  let screeniePixmapItems :=
    d.screenieGraphicsScene.items.enum.filter (fun p => p.2.isScreeniePixmapItem)
  let sorted := sort (fun p1 p2 => zSort d.screenieScene p1.2 p2.2) screeniePixmapItems
  { d with
    screenieGraphicsScene.items := assignZValues sorted 0 d.screenieGraphicsScene.items }

/-- ScreenieControl::handleDistanceChanged (lines 547-561). -/
def handleDistanceChanged (d : ScreenieControlPrivate) : ScreenieControlPrivate :=
  handleDistanceChangedWith qSort d

/-- ScreenieControl::handleModelAdded (lines 563-571). -/
def handleModelAdded (env : Collaborators) (d : ScreenieControlPrivate)
    (screenieModel : ScreenieModel) : ScreenieControlPrivate :=
  let screeniePixmapItem : GraphicsItem :=
    { isScreeniePixmapItem := true
      screenieModel := screenieModel.ref
      pos := screenieModel.position
      selected := true
      zValue := 0
      transformationMode := env.newItemTransformationMode }
  let cleared := d.screenieGraphicsScene.items.map (fun item => { item with selected := false })
  handleDistanceChanged
    { d with screenieGraphicsScene.items := cleared ++ [screeniePixmapItem] }

/-- ScreenieControl::handleModelRemoved (lines 573-585): the first ScreeniePixmapItem
whose model is the removed one is taken out of the scene and deleted. -/
def handleModelRemoved (d : ScreenieControlPrivate) (screenieModel : Nat) :
    ScreenieControlPrivate :=
  { d with
    screenieGraphicsScene.items := d.screenieGraphicsScene.items.eraseP (fun graphicsItem =>
      graphicsItem.isScreeniePixmapItem && graphicsItem.screenieModel == screenieModel) }

/-- The outcome of a call of handleModelRemoved (lines 573-585), `none` standing for
an abort on a failed assertion.  The handler holds no assertion, throw or exit: when
the loop finds no item it falls off its end, so every call returns. -/
def handleModelRemovedOutcome (d : ScreenieControlPrivate) (screenieModel : Nat) :
    Option ScreenieControlPrivate :=
  some (handleModelRemoved d screenieModel)

/-- ScreenieControl::handleBackgroundChanged (lines 587-600). -/
def handleBackgroundChanged (d : ScreenieControlPrivate) : ScreenieControlPrivate :=
  if d.screenieScene.backgroundEnabled then
    { d with screenieGraphicsScene.backgroundBrush := .solid d.screenieScene.backgroundColor }
  else
    let checkerBoardBrush :=
      if d.checkerBoardBrush = .noBrush then QBrush.checkerPattern else d.checkerBoardBrush
    { d with
      checkerBoardBrush := checkerBoardBrush
      screenieGraphicsScene.backgroundBrush := checkerBoardBrush }

/-- ScreenieControl::updateScene (lines 119-126). -/
def updateScene (env : Collaborators) (d : ScreenieControlPrivate) : ScreenieControlPrivate :=
  let cleared := { d with screenieGraphicsScene.items := [] }
  d.screenieScene.models.foldl (handleModelAdded env) (handleBackgroundChanged cleared)

/-! ## The scene model's operations, with the notifications wired by frenchConnection -/

/-- Modelled from the spec: ScreenieScene::addModel appends the model and emits
model-added, which frenchConnection (lines 359-360) delivers to handleModelAdded. -/
def addModel (env : Collaborators) (d : ScreenieControlPrivate) (screenieModel : ScreenieModel) :
    ScreenieControlPrivate :=
  handleModelAdded env
    { d with screenieScene.models := d.screenieScene.models ++ [screenieModel] } screenieModel

/-- Modelled from the spec: ScreenieScene::removeModel takes the model out of the
scene, if it is there, and emits model-removed, which frenchConnection (lines
361-362) delivers to handleModelRemoved; the model is then destroyed. -/
def removeModel (d : ScreenieControlPrivate) (screenieModel : Nat) : ScreenieControlPrivate :=
  if d.screenieScene.models.any (fun m => m.ref == screenieModel) then
    handleModelRemoved
      { d with
        screenieScene.models := d.screenieScene.models.eraseP (fun m => m.ref == screenieModel) }
      screenieModel
  else d

/-- Modelled from the spec: ScreenieScene::hasTemplates, whether the scene
currently has template placeholders. -/
def ScreenieScene.hasTemplates (scene : ScreenieScene) : Bool :=
  scene.models.any (fun m => m.isTemplateModel)

/-- The address `new` returns: one that no model of the scene and no
back-reference of an item has. -/
def freshRef (d : ScreenieControlPrivate) : Nat :=
  (d.screenieScene.models.map (fun m => m.ref) ++
    d.screenieGraphicsScene.items.map (fun item => item.screenieModel)).foldr max 0 + 1

/-- Modelled from the spec: a freshly constructed model of the given variant at the
given address; its attributes are overwritten by applyDefaultValues or convert and
its position by setPosition on every path. -/
def newModel (ref : Nat) (kind : ModelKind) : ScreenieModel :=
  { ref := ref, kind := kind, position := ⟨0, 0⟩, rotation := 0, distance := 0,
    reflectionEnabled := false, reflectionOffset := 0, reflectionOpacity := 0 }

/-- Modelled from the spec: `convert(source)` takes over position, rotation,
distance and the reflection attributes of the source model. -/
def ScreenieModel.convert (m source : ScreenieModel) : ScreenieModel :=
  { m with
    position := source.position
    rotation := source.rotation
    distance := source.distance
    reflectionEnabled := source.reflectionEnabled
    reflectionOffset := source.reflectionOffset
    reflectionOpacity := source.reflectionOpacity }

/-- A write through a model pointer: the object at address `ref` becomes `f` of itself. -/
def modifyModel (ref : Nat) (f : ScreenieModel → ScreenieModel) (d : ScreenieControlPrivate) :
    ScreenieControlPrivate :=
  { d with
    screenieScene.models := d.screenieScene.models.map (fun m => if m.ref = ref then f m else m) }

/-! ## Model attribute operations -/

/-- Modelled from the spec: `translate(dx, dy)` moves the position. -/
def ScreenieModel.translate (dx dy : ℚ) (m : ScreenieModel) : ScreenieModel :=
  { m with position := ⟨m.position.x + dx, m.position.y + dy⟩ }

/-- Modelled from the spec: `setPosition(position)` sets the position. -/
def ScreenieModel.setPosition (position : QPointF) (m : ScreenieModel) : ScreenieModel :=
  { m with position := position }

/-- Modelled from the spec: `setRotation(angle)` sets the rotation angle. -/
def ScreenieModel.setRotation (angle : Int) (m : ScreenieModel) : ScreenieModel :=
  { m with rotation := angle }

/-- Modelled from the spec: `rotate(angle)` adds to the rotation angle. -/
def ScreenieModel.rotate (angle : Int) (m : ScreenieModel) : ScreenieModel :=
  { m with rotation := m.rotation + angle }

/-- Modelled from the spec: `setReflectionEnabled(enable)` sets the reflection flag. -/
def ScreenieModel.setReflectionEnabled (enable : Bool) (m : ScreenieModel) : ScreenieModel :=
  { m with reflectionEnabled := enable }

/-- Modelled from the spec: `setReflectionOffset(offset)` sets the reflection offset. -/
def ScreenieModel.setReflectionOffset (reflectionOffset : Int) (m : ScreenieModel) :
    ScreenieModel :=
  { m with reflectionOffset := reflectionOffset }

/-- Modelled from the spec: `addReflectionOffset(offset)` adds to the reflection offset. -/
def ScreenieModel.addReflectionOffset (reflectionOffset : Int) (m : ScreenieModel) :
    ScreenieModel :=
  { m with reflectionOffset := m.reflectionOffset + reflectionOffset }

/-- Modelled from the spec: `setReflectionOpacity(opacity)` sets the reflection opacity. -/
def ScreenieModel.setReflectionOpacity (reflectionOpacity : Int) (m : ScreenieModel) :
    ScreenieModel :=
  { m with reflectionOpacity := reflectionOpacity }

/-- Modelled from the spec: `addReflectionOpacity(opacity)` adds to the reflection opacity. -/
def ScreenieModel.addReflectionOpacity (reflectionOpacity : Int) (m : ScreenieModel) :
    ScreenieModel :=
  { m with reflectionOpacity := m.reflectionOpacity + reflectionOpacity }

/-- Modelled from the spec: `setPixmap(pixmap)` replaces the pixel data of a pixmap model. -/
def ScreenieModel.setPixmap (pixmap : QPixmap) (m : ScreenieModel) : ScreenieModel :=
  { m with kind := .pixmap pixmap }

/-- Modelled from the spec: `setFilePath(filePath)` replaces the backing path. -/
def ScreenieModel.setFilePath (filePath : String) (m : ScreenieModel) : ScreenieModel :=
  match m.kind with
  | .filePath _ sizeFitter => { m with kind := .filePath filePath sizeFitter }
  | _ => m

/-- Modelled from the spec: a write to the distance of the model at `ref`; when
the distance changes the scene emits distance-changed, which frenchConnection
(lines 357-358) delivers to handleDistanceChanged. -/
def writeDistance (ref : Nat) (f : Int → Int) (d : ScreenieControlPrivate) :
    ScreenieControlPrivate :=
  let written := modifyModel ref (fun m => { m with distance := f m.distance }) d
  if written.screenieScene = d.screenieScene then written else handleDistanceChanged written

/-! ## ScreenieControl: public slots -/

/-- The loop of ScreenieControl::addImages(QStringList, QPointF) (lines 158-169). -/
def addImagesFilePathsLoop (env : Collaborators) :
    List String → QPointF → ScreenieControlPrivate → ScreenieControlPrivate
  | [], _, d => d
  | filePath :: rest, position, d =>
      let screenieModel := applyDefaultValues d (newModel (freshRef d) (.filePath filePath none))
      let itemPosition := calculateItemPositionAt env screenieModel position
      let position : QPointF := ⟨position.x + 20, position.y + 20⟩
      let screenieModel := screenieModel.setPosition itemPosition
      addImagesFilePathsLoop env rest position (addModel env d screenieModel)

/-- ScreenieControl::addImages(QStringList, QPointF) (lines 158-169). -/
def addImagesFilePaths (env : Collaborators) (filePaths : List String) (centerPosition : QPointF)
    (d : ScreenieControlPrivate) : ScreenieControlPrivate :=
  addImagesFilePathsLoop env filePaths centerPosition d

/-- ScreenieControl::addImage(QString, QPointF) (lines 152-156). -/
def addImageFilePath (env : Collaborators) (filePath : String) (centerPosition : QPointF)
    (d : ScreenieControlPrivate) : ScreenieControlPrivate :=
  addImagesFilePaths env [filePath] centerPosition d

/-- The loop of ScreenieControl::addImages(QList<QPixmap>, QPointF) (lines 178-189). -/
def addImagesPixmapsLoop (env : Collaborators) :
    List QPixmap → QPointF → ScreenieControlPrivate → ScreenieControlPrivate
  | [], _, d => d
  | pixmap :: rest, position, d =>
      let screenieModel := applyDefaultValues d (newModel (freshRef d) (.pixmap pixmap))
      let itemPosition := calculateItemPositionAt env screenieModel position
      let position : QPointF := ⟨position.x + 20, position.y + 20⟩
      let screenieModel := screenieModel.setPosition itemPosition
      addImagesPixmapsLoop env rest position (addModel env d screenieModel)

/-- ScreenieControl::addImages(QList<QPixmap>, QPointF) (lines 178-189). -/
def addImagesPixmaps (env : Collaborators) (pixmaps : List QPixmap) (centerPosition : QPointF)
    (d : ScreenieControlPrivate) : ScreenieControlPrivate :=
  addImagesPixmapsLoop env pixmaps centerPosition d

/-- ScreenieControl::addImage(QPixmap, QPointF) (lines 171-176). -/
def addImagePixmap (env : Collaborators) (pixmap : QPixmap) (centerPosition : QPointF)
    (d : ScreenieControlPrivate) : ScreenieControlPrivate :=
  addImagesPixmaps env [pixmap] centerPosition d

/-- ScreenieControl::addTemplate (lines 191-199); a new ScreenieTemplateModel(size)
has a fitter targeting its size. -/
def addTemplate (env : Collaborators) (centerPosition : QPointF) (d : ScreenieControlPrivate) :
    ScreenieControlPrivate :=
  let size : QSize := ⟨400, 400⟩
  let screenieModel := newModel (freshRef d) (.template size ⟨size, 0⟩)
  let screenieModel := applyDefaultValues d screenieModel
  let screenieModel := screenieModel.setPosition centerPosition
  addModel env d screenieModel

/-- QTimer::start() on the quality timer. -/
def startQualityTimer (d : ScreenieControlPrivate) : ScreenieControlPrivate :=
  { d with qualityTimer := d.qualityTimer.start }

/-- The loop `foreach (screenieModel, screenieModels) screenieModel->op(..)` of the
batch setters: one write through each selected model pointer. -/
def forSelected (f : ScreenieModel → ScreenieModel) (screenieModels : List Nat)
    (d : ScreenieControlPrivate) : ScreenieControlPrivate :=
  screenieModels.foldl (fun d ref => modifyModel ref f d) d

/-- ScreenieControl::removeAll (lines 201-209). -/
def removeAll (d : ScreenieControlPrivate) : ScreenieControlPrivate :=
  let d1 := setRenderQuality .Low d
  let screenieModels := getSelectedScreenieModels d1
  let d2 := screenieModels.foldl removeModel d1
  startQualityTimer d2

/-- ScreenieControl::selectAll (lines 211-216). -/
def selectAll (d : ScreenieControlPrivate) : ScreenieControlPrivate :=
  { d with
    screenieGraphicsScene.items :=
      d.screenieGraphicsScene.items.map (fun item => { item with selected := true }) }

/-- ScreenieControl::translate (lines 218-230). -/
def translate (dx dy : ℚ) (d : ScreenieControlPrivate) : ScreenieControlPrivate :=
  let decreaseQuality := decide (dx ≠ 0) && decide (dy ≠ 0)
  let d1 := if decreaseQuality then startQualityTimer (setRenderQuality .Low d) else d
  let screenieModels := getSelectedScreenieModels d1
  forSelected (fun m => m.translate dx dy) screenieModels d1

/-- ScreenieControl::setRotation (lines 232-240). -/
def setRotation (angle : Int) (d : ScreenieControlPrivate) : ScreenieControlPrivate :=
  let d1 := setRenderQuality .Low d
  let screenieModels := getSelectedScreenieModels d1
  startQualityTimer (forSelected (fun m => m.setRotation angle) screenieModels d1)

/-- ScreenieControl::rotate (lines 242-250). -/
def rotate (angle : Int) (d : ScreenieControlPrivate) : ScreenieControlPrivate :=
  let d1 := setRenderQuality .Low d
  let screenieModels := getSelectedScreenieModels d1
  startQualityTimer
    (forSelected (fun m => m.rotate angle) screenieModels d1)

/-- ScreenieControl::setDistance (lines 252-260). -/
def setDistance (distance : Int) (d : ScreenieControlPrivate) : ScreenieControlPrivate :=
  let d1 := setRenderQuality .Low d
  let screenieModels := getSelectedScreenieModels d1
  startQualityTimer
    (screenieModels.foldl (fun d ref => writeDistance ref (fun _ => distance) d) d1)

/-- ScreenieControl::addDistance (lines 262-270). -/
def addDistance (distance : Int) (d : ScreenieControlPrivate) : ScreenieControlPrivate :=
  let d1 := setRenderQuality .Low d
  let screenieModels := getSelectedScreenieModels d1
  startQualityTimer
    (screenieModels.foldl (fun d ref => writeDistance ref (fun old => old + distance) d) d1)

/-- ScreenieControl::setReflectionEnabled (lines 272-280). -/
def setReflectionEnabled (enable : Bool) (d : ScreenieControlPrivate) : ScreenieControlPrivate :=
  let d1 := setRenderQuality .Low d
  let screenieModels := getSelectedScreenieModels d1
  startQualityTimer
    (forSelected (fun m => m.setReflectionEnabled enable) screenieModels d1)

/-- ScreenieControl::setReflectionOffset (lines 282-290). -/
def setReflectionOffset (reflectionOffset : Int) (d : ScreenieControlPrivate) :
    ScreenieControlPrivate :=
  let d1 := setRenderQuality .Low d
  let screenieModels := getSelectedScreenieModels d1
  startQualityTimer
    (forSelected (fun m => m.setReflectionOffset reflectionOffset) screenieModels d1)

/-- ScreenieControl::addReflectionOffset (lines 292-300). -/
def addReflectionOffset (reflectionOffset : Int) (d : ScreenieControlPrivate) :
    ScreenieControlPrivate :=
  let d1 := setRenderQuality .Low d
  let screenieModels := getSelectedScreenieModels d1
  startQualityTimer
    (forSelected (fun m => m.addReflectionOffset reflectionOffset) screenieModels d1)

/-- ScreenieControl::setReflectionOpacity (lines 302-310). -/
def setReflectionOpacity (reflectionOpacity : Int) (d : ScreenieControlPrivate) :
    ScreenieControlPrivate :=
  let d1 := setRenderQuality .Low d
  let screenieModels := getSelectedScreenieModels d1
  startQualityTimer
    (forSelected (fun m => m.setReflectionOpacity reflectionOpacity) screenieModels d1)

/-- ScreenieControl::addReflectionOpacity (lines 312-320). -/
def addReflectionOpacity (reflectionOpacity : Int) (d : ScreenieControlPrivate) :
    ScreenieControlPrivate :=
  let d1 := setRenderQuality .Low d
  let screenieModels := getSelectedScreenieModels d1
  startQualityTimer
    (forSelected (fun m => m.addReflectionOpacity reflectionOpacity) screenieModels d1)

/-! ## Content update and variant conversion (lines 433-503) -/

/-- ScreenieControl::scaleToTemplate (lines 433-445), on the template's size fitter. -/
def scaleToTemplate (env : Collaborators) (sizeFitter : SizeFitter) (pixmap : QPixmap) : QPixmap :=
  match env.fit sizeFitter pixmap.size with
  | some fittedSize => pixmap.scaled fittedSize
  | none => pixmap

/-- ScreenieControl::updatePixmapModel (lines 455-477). -/
def updatePixmapModel (env : Collaborators) (pixmap : QPixmap) (screenieModel : ScreenieModel)
    (d : ScreenieControlPrivate) : ScreenieControlPrivate :=
  let actualPixmap := pixmap
  if !actualPixmap.isNull then
    if screenieModel.isPixmapModel then
      let itemPosition :=
        calculateItemPosition screenieModel.position (screenieModel.getSize env) actualPixmap.size
      modifyModel screenieModel.ref
        (fun m => (m.setPixmap actualPixmap).setPosition itemPosition) d
    else
      let actualPixmap :=
        match screenieModel.kind with
        | .template _ sizeFitter => scaleToTemplate env sizeFitter actualPixmap
        | _ => actualPixmap
      let screeniePixmapModel := newModel (freshRef d) (.pixmap actualPixmap)
      let itemPosition :=
        calculateItemPosition screenieModel.position (screenieModel.getSize env) actualPixmap.size
      let screeniePixmapModel :=
        (screeniePixmapModel.convert screenieModel).setPosition itemPosition
      addModel env (removeModel d screenieModel.ref) screeniePixmapModel
  else d

/-- ScreenieControl::updateFilePathModel (lines 479-503). -/
def updateFilePathModel (env : Collaborators) (filePath : String) (screenieModel : ScreenieModel)
    (d : ScreenieControlPrivate) : ScreenieControlPrivate :=
  if screenieModel.isFilePathModel then
    let oldSize := screenieModel.getSize env
    let itemPosition :=
      calculateItemPosition screenieModel.position oldSize
        ((screenieModel.setFilePath filePath).getSize env)
    modifyModel screenieModel.ref
      (fun m => (m.setFilePath filePath).setPosition itemPosition) d
  else
    let screenieFilePathModel :=
      match screenieModel.kind with
      | .template _ sizeFitter => newModel (freshRef d) (.filePath filePath (some sizeFitter))
      | _ => newModel (freshRef d) (.filePath filePath none)
    let size := screenieFilePathModel.getSize env
    let itemPosition :=
      calculateItemPosition screenieModel.position (screenieModel.getSize env) size
    let screenieFilePathModel :=
      (screenieFilePathModel.convert screenieModel).setPosition itemPosition
    addModel env (removeModel d screenieModel.ref) screenieFilePathModel

/-! ## Drop handlers (lines 507-545) -/

/-- The while loop of handleFilePathsDrop: `i` counts the dropped paths, the list
argument is what the template iterator `it` has still to visit. -/
def filePathsDropLoop (env : Collaborators) (filePaths : List String) (n : Nat) :
    Nat → List ScreenieModel → ScreenieControlPrivate → ScreenieControlPrivate
  | _, [], d => d
  | i, templateModel :: it, d =>
      if i < n then
        match filePaths[i]? with
        | some filePath =>
            filePathsDropLoop env filePaths n (i + 1) it
              (updateFilePathModel env filePath templateModel d)
        | none => d
      else d

/-- ScreenieControl::handleFilePathsDrop (lines 507-525). -/
def handleFilePathsDrop (env : Collaborators) (filePaths : List String) (centerPosition : QPointF)
    (d : ScreenieControlPrivate) : ScreenieControlPrivate :=
  if !d.screenieScene.hasTemplates then
    addImagesFilePaths env filePaths centerPosition d
  else
    let templateModels := env.getOrderedTemplates d.screenieScene
    filePathsDropLoop env filePaths filePaths.length 0 templateModels d

/-- The while loop of handlePixmapsDrop: `i` counts the dropped pixmaps, the list
argument is what the template iterator `it` has still to visit. -/
def pixmapsDropLoop (env : Collaborators) (pixmaps : List QPixmap) (n : Nat) :
    Nat → List ScreenieModel → ScreenieControlPrivate → ScreenieControlPrivate
  | _, [], d => d
  | i, templateModel :: it, d =>
      if i < n then
        match pixmaps[i]? with
        | some pixmap =>
            pixmapsDropLoop env pixmaps n (i + 1) it
              (updatePixmapModel env pixmap templateModel d)
        | none => d
      else d

/-- ScreenieControl::handlePixmapsDrop (lines 527-545). -/
def handlePixmapsDrop (env : Collaborators) (pixmaps : List QPixmap) (centerPosition : QPointF)
    (d : ScreenieControlPrivate) : ScreenieControlPrivate :=
  if !d.screenieScene.hasTemplates then
    addImagesPixmaps env pixmaps centerPosition d
  else
    let templateModels := env.getOrderedTemplates d.screenieScene
    pixmapsDropLoop env pixmaps pixmaps.length 0 templateModels d

/-! ## The constructor and the event loop -/

/-- ScreenieControl::ScreenieControl (lines 88-95): the quality timer is single
shot with an interval of 300 ms and is not running. -/
def ScreenieControl (screenieScene : ScreenieScene) (screenieGraphicsScene : ScreenieGraphicsScene)
    (defaultScreenieModel : DefaultScreenieModel) (now : Nat) : ScreenieControlPrivate :=
  { screenieScene := screenieScene
    screenieGraphicsScene := screenieGraphicsScene
    checkerBoardBrush := .noBrush
    qualityTimer := { interval := 300, now := now, deadline := none }
    defaultScreenieModel := defaultScreenieModel }

/-- The event loop runs until time `t` with no call from outside: a deadline that
falls at or before `t` fires restoreRenderQuality (frenchConnection, lines 375-376)
once and the single-shot timer stops.  The second component lists the times at
which restoreRenderQuality ran. -/
def processEvents (t : Nat) (d : ScreenieControlPrivate) : ScreenieControlPrivate × List Nat :=
  match d.qualityTimer.deadline with
  | some deadline =>
      if deadline ≤ t then
        (restoreRenderQuality
          { d with qualityTimer := { d.qualityTimer with now := t, deadline := none } },
         [deadline])
      else ({ d with qualityTimer := { d.qualityTimer with now := t } }, [])
  | none => ({ d with qualityTimer := { d.qualityTimer with now := t } }, [])

/-! ## The position computations as the code evaluates them: IEEE 754 double

`qreal` is `double`.  A finite double is the rational it denotes; an operation on
doubles is the exact operation followed by `roundToDouble`. -/

/-- The integer nearest to `x`, the even one of the two when `x` lies half way. -/
def roundHalfEven (x : ℚ) : ℤ :=
  if x - (⌊x⌋ : ℚ) < 1 / 2 then ⌊x⌋
  else if 1 / 2 < x - (⌊x⌋ : ℚ) then ⌊x⌋ + 1
  else if ⌊x⌋ % 2 = 0 then ⌊x⌋ else ⌊x⌋ + 1

/-- The exponent of the unit in the last place of the doubles around `q`: 52 below
the exponent of `q` (53 significant bits), the exponent never below -1022
(subnormal numbers). -/
def ulpExponent (q : ℚ) : ℤ := max (Int.log 2 |q|) (-1022) - 52

/-- IEEE 754 binary64 rounding, to nearest and ties to even, of an exact result.
Overflow to infinity, at 2^1024, is left out: positions and sizes are far below. -/
def roundToDouble (q : ℚ) : ℚ :=
  (roundHalfEven (q / 2 ^ ulpExponent q) : ℚ) * 2 ^ ulpExponent q

/-- ScreenieControl::calculateItemPosition(const ScreenieModelInterface &, const QPointF &)
(lines 424-431) in double: `centerPosition.x() - itemSize.width() / 2.0`, the
`int` converting to double exactly. -/
def calculateItemPositionAtDouble (env : Collaborators) (screenieModel : ScreenieModel)
    (centerPosition : QPointF) : QPointF :=
  let itemSize := screenieModel.getSize env
  ⟨roundToDouble (centerPosition.x - roundToDouble ((itemSize.width : ℚ) / 2)),
   roundToDouble (centerPosition.y - roundToDouble ((itemSize.height : ℚ) / 2))⟩

/-- ScreenieControl::calculateItemPosition(const QPointF &, const QSize &, const QSize &)
(lines 447-453) in double:
`sourcePosition.x() + sourceSize.width() / 2.0 - targetSize.width() / 2.0`,
evaluated left to right. -/
def calculateItemPositionDouble (sourcePosition : QPointF) (sourceSize targetSize : QSize) :
    QPointF :=
  ⟨roundToDouble (roundToDouble (sourcePosition.x + roundToDouble ((sourceSize.width : ℚ) / 2)) -
      roundToDouble ((targetSize.width : ℚ) / 2)),
   roundToDouble (roundToDouble (sourcePosition.y + roundToDouble ((sourceSize.height : ℚ) / 2)) -
      roundToDouble ((targetSize.height : ℚ) / 2))⟩

/-- The loop of ScreenieControl::addImages(QStringList, QPointF) (lines 158-169) in
double. -/
def addImagesFilePathsLoopDouble (env : Collaborators) :
    List String → QPointF → ScreenieControlPrivate → ScreenieControlPrivate
  | [], _, d => d
  | filePath :: rest, position, d =>
      let screenieModel := applyDefaultValues d (newModel (freshRef d) (.filePath filePath none))
      let itemPosition := calculateItemPositionAtDouble env screenieModel position
      let position : QPointF := ⟨roundToDouble (position.x + 20), roundToDouble (position.y + 20)⟩
      let screenieModel := screenieModel.setPosition itemPosition
      addImagesFilePathsLoopDouble env rest position (addModel env d screenieModel)

/-- ScreenieControl::addImages(QStringList, QPointF) (lines 158-169) in double. -/
def addImagesFilePathsDouble (env : Collaborators) (filePaths : List String)
    (centerPosition : QPointF) (d : ScreenieControlPrivate) : ScreenieControlPrivate :=
  addImagesFilePathsLoopDouble env filePaths centerPosition d

/-- The loop of ScreenieControl::addImages(QList<QPixmap>, QPointF) (lines 178-189)
in double. -/
def addImagesPixmapsLoopDouble (env : Collaborators) :
    List QPixmap → QPointF → ScreenieControlPrivate → ScreenieControlPrivate
  | [], _, d => d
  | pixmap :: rest, position, d =>
      let screenieModel := applyDefaultValues d (newModel (freshRef d) (.pixmap pixmap))
      let itemPosition := calculateItemPositionAtDouble env screenieModel position
      let position : QPointF := ⟨roundToDouble (position.x + 20), roundToDouble (position.y + 20)⟩
      let screenieModel := screenieModel.setPosition itemPosition
      addImagesPixmapsLoopDouble env rest position (addModel env d screenieModel)

/-- ScreenieControl::addImages(QList<QPixmap>, QPointF) (lines 178-189) in double. -/
def addImagesPixmapsDouble (env : Collaborators) (pixmaps : List QPixmap)
    (centerPosition : QPointF) (d : ScreenieControlPrivate) : ScreenieControlPrivate :=
  addImagesPixmapsLoopDouble env pixmaps centerPosition d

/-- ScreenieControl::updatePixmapModel (lines 455-477) in double. -/
def updatePixmapModelDouble (env : Collaborators) (pixmap : QPixmap)
    (screenieModel : ScreenieModel) (d : ScreenieControlPrivate) : ScreenieControlPrivate :=
  let actualPixmap := pixmap
  if !actualPixmap.isNull then
    if screenieModel.isPixmapModel then
      let itemPosition :=
        calculateItemPositionDouble screenieModel.position (screenieModel.getSize env)
          actualPixmap.size
      modifyModel screenieModel.ref
        (fun m => (m.setPixmap actualPixmap).setPosition itemPosition) d
    else
      let actualPixmap :=
        match screenieModel.kind with
        | .template _ sizeFitter => scaleToTemplate env sizeFitter actualPixmap
        | _ => actualPixmap
      let screeniePixmapModel := newModel (freshRef d) (.pixmap actualPixmap)
      let itemPosition :=
        calculateItemPositionDouble screenieModel.position (screenieModel.getSize env)
          actualPixmap.size
      let screeniePixmapModel :=
        (screeniePixmapModel.convert screenieModel).setPosition itemPosition
      addModel env (removeModel d screenieModel.ref) screeniePixmapModel
  else d

/-! ## Well-formedness -/

/-- Distinct models of the scene have distinct addresses. -/
def ScreenieScene.DistinctRefs (scene : ScreenieScene) : Prop :=
  (scene.models.map (fun m => m.ref)).Nodup

instance (scene : ScreenieScene) : Decidable scene.DistinctRefs :=
  inferInstanceAs (Decidable (List.Nodup _))

/-- The back-references of the ScreeniePixmapItems, in the order of the items. -/
def itemBackReferences (d : ScreenieControlPrivate) : List Nat :=
  (getScreeniePixmapItems d).map (fun item => item.screenieModel)

/-- The one-to-one correspondence of Visual Items and models: the back-references
of the ScreeniePixmapItems are, up to order, the addresses of the models of the
scene, and these addresses are distinct. -/
def OneToOne (d : ScreenieControlPrivate) : Prop :=
  (itemBackReferences d).Perm (d.screenieScene.models.map (fun m => m.ref)) ∧
    d.screenieScene.DistinctRefs

instance (d : ScreenieControlPrivate) : Decidable (OneToOne d) :=
  inferInstanceAs (Decidable (_ ∧ _))

/-- A mutation of the scene model as the controller observes it: a model is added
(model-added is delivered), a model is removed (model-removed is delivered), or
the scene is rebuilt by updateScene(). -/
inductive SceneOp where
  | addModel (screenieModel : ScreenieModel)
  | removeModel (screenieModel : Nat)
  | updateScene

/-- One mutation. -/
def SceneOp.apply (env : Collaborators) (d : ScreenieControlPrivate) :
    SceneOp → ScreenieControlPrivate
  | .addModel screenieModel => Screenie.addModel env d screenieModel
  | .removeModel screenieModel => Screenie.removeModel d screenieModel
  | .updateScene => Screenie.updateScene env d

/-- A sequence of mutations, first to last. -/
def runOps (env : Collaborators) (ops : List SceneOp) (d : ScreenieControlPrivate) :
    ScreenieControlPrivate :=
  ops.foldl (SceneOp.apply env) d

/-- Every model added in the sequence is a new object: at the moment it is added
its address is that of no model of the scene. -/
def FreshAdds (env : Collaborators) : ScreenieControlPrivate → List SceneOp → Prop
  | _, [] => True
  | d, .addModel screenieModel :: rest =>
      screenieModel.ref ∉ d.screenieScene.models.map (fun m => m.ref) ∧
        FreshAdds env (Screenie.addModel env d screenieModel) rest
  | d, op :: rest => FreshAdds env (op.apply env d) rest

/-! ## Render quality and the calls that degrade it -/

/-- Render quality is Low: every ScreeniePixmapItem transforms fast and every view
has the render hints setRenderQuality(Low) sets. -/
def LowQuality (d : ScreenieControlPrivate) : Prop :=
  (∀ item ∈ getScreeniePixmapItems d, item.transformationMode = .FastTransformation) ∧
    ∀ hints ∈ d.screenieGraphicsScene.views, hints = NonCosmeticDefaultPen

/-- Render quality is High: every ScreeniePixmapItem transforms smoothly and every
view has the render hints setRenderQuality(High) sets. -/
def HighQuality (d : ScreenieControlPrivate) : Prop :=
  (∀ item ∈ getScreeniePixmapItems d, item.transformationMode = .SmoothTransformation) ∧
    ∀ hints ∈ d.screenieGraphicsScene.views, hints = Antialiasing ||| SmoothPixmapTransform

instance (d : ScreenieControlPrivate) : Decidable (LowQuality d) :=
  inferInstanceAs (Decidable (_ ∧ _))

instance (d : ScreenieControlPrivate) : Decidable (HighQuality d) :=
  inferInstanceAs (Decidable (_ ∧ _))

/-- A call of one of the slots that lower the render quality (lines 201-320). -/
inductive ControlCall where
  | removeAll
  | translate (dx dy : ℚ)
  | setRotation (angle : Int)
  | rotate (angle : Int)
  | setDistance (distance : Int)
  | addDistance (distance : Int)
  | setReflectionEnabled (enable : Bool)
  | setReflectionOffset (reflectionOffset : Int)
  | addReflectionOffset (reflectionOffset : Int)
  | setReflectionOpacity (reflectionOpacity : Int)
  | addReflectionOpacity (reflectionOpacity : Int)

/-- The call, run to completion. -/
def ControlCall.run : ControlCall → ScreenieControlPrivate → ScreenieControlPrivate
  | .removeAll => Screenie.removeAll
  | .translate dx dy => Screenie.translate dx dy
  | .setRotation angle => Screenie.setRotation angle
  | .rotate angle => Screenie.rotate angle
  | .setDistance distance => Screenie.setDistance distance
  | .addDistance distance => Screenie.addDistance distance
  | .setReflectionEnabled enable => Screenie.setReflectionEnabled enable
  | .setReflectionOffset reflectionOffset => Screenie.setReflectionOffset reflectionOffset
  | .addReflectionOffset reflectionOffset => Screenie.addReflectionOffset reflectionOffset
  | .setReflectionOpacity reflectionOpacity => Screenie.setReflectionOpacity reflectionOpacity
  | .addReflectionOpacity reflectionOpacity => Screenie.addReflectionOpacity reflectionOpacity

/-- Whether the call is quality-degrading: every one is, except a translate along
one axis only (`decreaseQuality` of lines 220-224). -/
def ControlCall.decreasesQuality : ControlCall → Bool
  | .translate dx dy => decide (dx ≠ 0) && decide (dy ≠ 0)
  | _ => true

/-! ## A concrete scene -/

/-- Collaborators of the concrete scene: a path of k characters decodes to an
image of 100k x 60, a fitter asks for its target size, the templates are ordered
as in the scene. -/
def exampleEnv : Collaborators :=
  { imageSize := fun filePath => ⟨100 * (filePath.length : Int), 60⟩
    fit := fun sizeFitter size =>
      if size = sizeFitter.targetSize then none else some sizeFitter.targetSize
    newItemTransformationMode := .SmoothTransformation
    getOrderedTemplates := fun scene => scene.models.filter (fun m => m.isTemplateModel) }

/-- A non-null pixmap of 640 x 480. -/
def examplePixmap : QPixmap := ⟨false, ⟨640, 480⟩, 7⟩

/-- A pixmap model at address 1: a 200 x 100 pixmap at (10, 20). -/
def examplePixmapModel : ScreenieModel :=
  { ref := 1, kind := .pixmap ⟨false, ⟨200, 100⟩, 3⟩, position := ⟨10, 20⟩, rotation := 15,
    distance := 5, reflectionEnabled := true, reflectionOffset := 40, reflectionOpacity := 50 }

/-- A file-path model at address 2, for the path "a.png", at (300, 40). -/
def exampleFilePathModel : ScreenieModel :=
  { ref := 2, kind := .filePath "a.png" none, position := ⟨300, 40⟩, rotation := 30,
    distance := 9, reflectionEnabled := false, reflectionOffset := 20, reflectionOpacity := 80 }

/-- A template at address 3: 400 x 400 at (0, 0). -/
def exampleTemplateModel : ScreenieModel :=
  { ref := 3, kind := .template ⟨400, 400⟩ ⟨⟨400, 400⟩, 0⟩, position := ⟨0, 0⟩, rotation := 0,
    distance := 7, reflectionEnabled := false, reflectionOffset := 0, reflectionOpacity := 0 }

/-- The ScreeniePixmapItem of a model, as handleModelAdded constructs it. -/
def exampleItem (m : ScreenieModel) (selected : Bool) : GraphicsItem :=
  { isScreeniePixmapItem := true, screenieModel := m.ref, pos := m.position,
    selected := selected, zValue := 0, transformationMode := .SmoothTransformation }

/-- A controller at time 1000 over a scene of three models, one of each variant,
each with its item; the items of the pixmap model and of the template are
selected; one view is attached. -/
def exampleState : ScreenieControlPrivate :=
  ScreenieControl
    { models := [examplePixmapModel, exampleFilePathModel, exampleTemplateModel]
      backgroundEnabled := false
      backgroundColor := ⟨255, 255, 255⟩ }
    { items := [exampleItem examplePixmapModel true, exampleItem exampleFilePathModel false,
        exampleItem exampleTemplateModel true]
      views := [Antialiasing ||| SmoothPixmapTransform]
      backgroundBrush := .checkerPattern }
    { distance := 0, rotation := 0, reflectionEnabled := true, reflectionOffset := 40,
      reflectionOpacity := 50 }
    1000

/-- A new pixmap model at address 4. -/
def exampleNewModel : ScreenieModel :=
  { ref := 4, kind := .pixmap examplePixmap, position := ⟨50, 60⟩, rotation := 0,
    distance := 12, reflectionEnabled := true, reflectionOffset := 40, reflectionOpacity := 50 }

/-- A sequence of mutations of the concrete scene. -/
def exampleOps : List SceneOp :=
  [.addModel exampleNewModel, .removeModel 1, .updateScene, .removeModel 2]

/-- The double nearest to 0.1, which is 3602879701896397 / 2^55. -/
def exampleTenth : ℚ := 3602879701896397 / 2 ^ 55

/-- The double nearest to 40.3, which is 2835860390359859 / 2^46. -/
def exampleFortyPointThree : ℚ := 2835860390359859 / 2 ^ 46

/-- A non-null pixmap of 1 x 1. -/
def exampleOnePixel : QPixmap := ⟨false, ⟨1, 1⟩, 9⟩

/-- The file-path model at address 2 of the concrete scene, moved to (300, 40.3). -/
def exampleOffGridModel : ScreenieModel :=
  { exampleFilePathModel with position := ⟨300, exampleFortyPointThree⟩ }

/-- The concrete scene with its file-path model at (300, 40.3). -/
def exampleOffGridState : ScreenieControlPrivate :=
  ScreenieControl
    { models := [examplePixmapModel, exampleOffGridModel, exampleTemplateModel]
      backgroundEnabled := false
      backgroundColor := ⟨255, 255, 255⟩ }
    { items := [exampleItem examplePixmapModel true, exampleItem exampleOffGridModel false,
        exampleItem exampleTemplateModel true]
      views := [Antialiasing ||| SmoothPixmapTransform]
      backgroundBrush := .checkerPattern }
    { distance := 0, rotation := 0, reflectionEnabled := true, reflectionOffset := 40,
      reflectionOpacity := 50 }
    1000

/-! ## Lookup of a model by its address -/

theorem find_ref_of_mem (models : List ScreenieModel) (m : ScreenieModel)
    (hnodup : (models.map (fun m => m.ref)).Nodup) (hmem : m ∈ models) :
    models.find? (fun x => x.ref == m.ref) = some m := by
  induction models with
  | nil => cases hmem
  | cons a l ih =>
    rw [List.map_cons, List.nodup_cons] at hnodup
    rcases List.mem_cons.mp hmem with h | h
    · subst h; simp
    · have hne : a.ref ≠ m.ref := by
        intro heq
        apply hnodup.1
        rw [heq]
        exact List.mem_map_of_mem (fun m => m.ref) h
      rw [List.find?_cons_of_neg _ (by simpa using hne)]
      exact ih hnodup.2 h

theorem modelAt_of_mem (scene : ScreenieScene) (m : ScreenieModel)
    (hnodup : scene.DistinctRefs) (hmem : m ∈ scene.models) :
    scene.modelAt m.ref = some m :=
  find_ref_of_mem scene.models m hnodup hmem

theorem find_ref_map_modify (models : List ScreenieModel) (ref : Nat)
    (f : ScreenieModel → ScreenieModel) (hf : ∀ m, (f m).ref = m.ref) :
    (models.map (fun m => if m.ref = ref then f m else m)).find? (fun x => x.ref == ref) =
      (models.find? (fun x => x.ref == ref)).map f := by
  induction models with
  | nil => rfl
  | cons a l ih =>
    by_cases h : a.ref = ref
    · simp [h, hf]
    · simp [h, ih]

theorem modelAt_modifyModel (d : ScreenieControlPrivate) (ref : Nat)
    (f : ScreenieModel → ScreenieModel) (hf : ∀ m, (f m).ref = m.ref) :
    (modifyModel ref f d).screenieScene.modelAt ref = (d.screenieScene.modelAt ref).map f :=
  find_ref_map_modify d.screenieScene.models ref f hf

theorem updatePixmapModel_of_isNull (env : Collaborators) (pixmap : QPixmap)
    (target : ScreenieModel) (d : ScreenieControlPrivate) (hnull : pixmap.isNull = true) :
    updatePixmapModel env pixmap target d = d := by
  simp [updatePixmapModel, hnull]

theorem setFilePath_ref (filePath : String) (m : ScreenieModel) :
    (m.setFilePath filePath).ref = m.ref := by
  simp only [ScreenieModel.setFilePath]
  split <;> rfl

theorem boxCenter_calculateItemPosition (sourcePosition : QPointF) (sourceSize targetSize : QSize) :
    boxCenter (calculateItemPosition sourcePosition sourceSize targetSize) targetSize =
      boxCenter sourcePosition sourceSize := by
  simp [boxCenter, calculateItemPosition]

/-- C1 (centre preservation): calculateItemPosition(sourcePosition, sourceSize,
targetSize) is (x + w0/2 - w1/2, y + h0/2 - h1/2) in exact arithmetic, so the box
of the new size at the result has the centre of the box of the old size at the
source position; hence an in-place update of a pixmap model by updatePixmapModel
(non-null pixmap) and of a file-path model by updateFilePathModel leaves the centre
of the model where it was, whatever the old and new sizes. -/
theorem center_preservation (env : Collaborators) (d : ScreenieControlPrivate)
    (target : ScreenieModel) (hdistinct : d.screenieScene.DistinctRefs)
    (hmem : target ∈ d.screenieScene.models) :
    (∀ (sourcePosition : QPointF) (sourceSize targetSize : QSize),
      calculateItemPosition sourcePosition sourceSize targetSize =
        ⟨sourcePosition.x + (sourceSize.width : ℚ) / 2 - (targetSize.width : ℚ) / 2,
         sourcePosition.y + (sourceSize.height : ℚ) / 2 - (targetSize.height : ℚ) / 2⟩ ∧
      boxCenter (calculateItemPosition sourcePosition sourceSize targetSize) targetSize =
        boxCenter sourcePosition sourceSize) ∧
    (∀ pixmap : QPixmap, target.isPixmapModel = true →
      ∃ updated,
        (updatePixmapModel env pixmap target d).screenieScene.modelAt target.ref = some updated ∧
        (pixmap.isNull = false → updated.kind = .pixmap pixmap) ∧
        updated.center env = target.center env) ∧
    (∀ filePath : String, target.isFilePathModel = true →
      ∃ updated,
        (updateFilePathModel env filePath target d).screenieScene.modelAt target.ref =
          some updated ∧
        updated.kind = (target.setFilePath filePath).kind ∧
        updated.center env = target.center env) := by
  refine ⟨fun p s0 s1 => ⟨rfl, boxCenter_calculateItemPosition p s0 s1⟩, ?_, ?_⟩
  · intro pixmap hkind
    by_cases hnull : pixmap.isNull = true
    · rw [updatePixmapModel_of_isNull env pixmap target d hnull]
      refine ⟨target, modelAt_of_mem _ _ hdistinct hmem, fun h => ?_, rfl⟩
      rw [hnull] at h
      cases h
    have hnull : pixmap.isNull = false := by simpa using hnull
    refine ⟨(target.setPixmap pixmap).setPosition
        (calculateItemPosition target.position (target.getSize env) pixmap.size), ?_, ?_, ?_⟩
    · simp only [updatePixmapModel, hnull, hkind, Bool.not_false, if_true]
      rw [modelAt_modifyModel, modelAt_of_mem _ _ hdistinct hmem]
      · rfl
      · intro m; rfl
    · intro _; rfl
    · exact boxCenter_calculateItemPosition target.position (target.getSize env) pixmap.size
  · intro filePath hkind
    refine ⟨(target.setFilePath filePath).setPosition
        (calculateItemPosition target.position (target.getSize env)
          ((target.setFilePath filePath).getSize env)), ?_, ?_, ?_⟩
    · simp only [updateFilePathModel, hkind, if_true]
      rw [modelAt_modifyModel, modelAt_of_mem _ _ hdistinct hmem]
      · rfl
      · intro m
        exact setFilePath_ref filePath m
    · rfl
    · exact boxCenter_calculateItemPosition target.position (target.getSize env)
        ((target.setFilePath filePath).getSize env)

/-- Witness of C1: the pixmap model of the concrete scene, updated in place with a
640 x 480 pixmap, keeps its centre. -/
theorem center_preservation_witness :
    exampleState.screenieScene.DistinctRefs ∧
      examplePixmapModel ∈ exampleState.screenieScene.models ∧
      ∃ updated,
        (updatePixmapModel exampleEnv examplePixmap examplePixmapModel
          exampleState).screenieScene.modelAt examplePixmapModel.ref = some updated ∧
        (examplePixmap.isNull = false → updated.kind = .pixmap examplePixmap) ∧
        updated.center exampleEnv = examplePixmapModel.center exampleEnv :=
  ⟨by decide, List.mem_cons_self _ _,
    (center_preservation exampleEnv exampleState examplePixmapModel (by decide)
      (List.mem_cons_self _ _)).2.1 examplePixmap rfl⟩

/-! ## Sorting -/

theorem qSortInsert_perm {α : Type} (lessThan : α → α → Bool) (a : α) (l : List α) :
    (qSortInsert lessThan a l).Perm (a :: l) := by
  induction l with
  | nil => exact List.Perm.refl _
  | cons b l ih =>
    simp only [qSortInsert]
    split
    · exact (ih.cons b).trans (List.Perm.swap a b l)
    · exact List.Perm.refl _

theorem qSort_perm {α : Type} (lessThan : α → α → Bool) (l : List α) :
    (qSort lessThan l).Perm l := by
  induction l with
  | nil => exact List.Perm.refl _
  | cons a l ih => exact (qSortInsert_perm lessThan a _).trans (ih.cons a)

theorem qSortInsert_sorted {α : Type} (lessThan : α → α → Bool)
    (hasymm : ∀ a b, lessThan a b = true → lessThan b a = false)
    (htrans : ∀ a b c, lessThan b a = false → lessThan c b = false → lessThan c a = false)
    (a : α) (l : List α) (hl : l.Pairwise (fun x y => lessThan y x = false)) :
    (qSortInsert lessThan a l).Pairwise (fun x y => lessThan y x = false) := by
  induction l with
  | nil => simp [qSortInsert]
  | cons b l ih =>
    rw [List.pairwise_cons] at hl
    simp only [qSortInsert]
    split
    · rename_i hba
      rw [List.pairwise_cons]
      refine ⟨fun y hy => ?_, ih hl.2⟩
      rcases List.mem_cons.mp ((qSortInsert_perm lessThan a l).subset hy) with h | h
      · subst h; exact hasymm _ _ hba
      · exact hl.1 y h
    · rename_i hba
      have hba2 : lessThan b a = false := by simpa using hba
      rw [List.pairwise_cons]
      refine ⟨fun y hy => ?_, List.pairwise_cons.mpr hl⟩
      rcases List.mem_cons.mp hy with h | h
      · subst h; exact hba2
      · exact htrans a b y hba2 (hl.1 y h)

theorem qSort_sorted {α : Type} (lessThan : α → α → Bool)
    (hasymm : ∀ a b, lessThan a b = true → lessThan b a = false)
    (htrans : ∀ a b c, lessThan b a = false → lessThan c b = false → lessThan c a = false)
    (l : List α) : (qSort lessThan l).Pairwise (fun x y => lessThan y x = false) := by
  induction l with
  | nil => simp [qSort]
  | cons a l ih => exact qSortInsert_sorted lessThan hasymm htrans a _ ih

/-! ## The z-value assignment loop -/

theorem setZValueAt_getElem? (slot : Nat) (z : Int) (items : List GraphicsItem) (i : Nat) :
    (setZValueAt slot z items)[i]? =
      if i = slot then (items[i]?).map (fun item => { item with zValue := z }) else items[i]? := by
  induction items generalizing slot i with
  | nil => cases slot <;> simp [setZValueAt]
  | cons item items ih =>
    cases slot with
    | zero =>
      cases i with
      | zero => simp [setZValueAt]
      | succ i => simp [setZValueAt]
    | succ slot =>
      cases i with
      | zero => simp [setZValueAt]
      | succ i => simp [setZValueAt, ih]

theorem assignZValues_getElem?_of_not_mem (sorted : List (Nat × GraphicsItem)) (z : Int)
    (items : List GraphicsItem) (i : Nat) (hi : i ∉ sorted.map Prod.fst) :
    (assignZValues sorted z items)[i]? = items[i]? := by
  induction sorted generalizing z items with
  | nil => rfl
  | cons p rest ih =>
    obtain ⟨slot, item⟩ := p
    simp only [List.map_cons, List.mem_cons, not_or] at hi
    simp only [assignZValues]
    rw [ih _ _ hi.2, setZValueAt_getElem?, if_neg hi.1]

theorem assignZValues_getElem?_of_mem (sorted : List (Nat × GraphicsItem)) (z : Int)
    (items : List GraphicsItem) (i : Nat) (hnodup : (sorted.map Prod.fst).Nodup)
    (hi : i ∈ sorted.map Prod.fst) :
    (assignZValues sorted z items)[i]? =
      (items[i]?).map (fun item =>
        { item with zValue := z + ((sorted.map Prod.fst).indexOf i : Nat) }) := by
  induction sorted generalizing z items with
  | nil => cases hi
  | cons p rest ih =>
    obtain ⟨slot, item⟩ := p
    simp only [List.map_cons, List.nodup_cons] at hnodup
    simp only [List.map_cons, List.mem_cons] at hi
    simp only [assignZValues, List.map_cons]
    by_cases h : i = slot
    · subst h
      rw [assignZValues_getElem?_of_not_mem _ _ _ _ hnodup.1, setZValueAt_getElem?, if_pos rfl,
        List.indexOf_cons_self]
      simp
    · have hmem : i ∈ rest.map Prod.fst := hi.resolve_left h
      rw [ih _ _ hnodup.2 hmem, setZValueAt_getElem?, if_neg h,
        List.indexOf_cons_ne _ (fun heq => h heq.symm)]
      congr 1
      funext it
      simp only [Nat.succ_eq_add_one, Nat.cast_add, Nat.cast_one]
      congr 1
      ring

theorem map_indexOf_self (l : List Nat) (hnodup : l.Nodup) :
    l.map (fun i => l.indexOf i) = List.range l.length := by
  apply List.ext_getElem
  · simp
  · intro n h1 h2
    simp only [List.getElem_map, List.getElem_range]
    exact List.indexOf_getElem hnodup n (by simpa using h1)

theorem enum_filter_map_snd (p : GraphicsItem → Bool) (items : List GraphicsItem) :
    (items.enum.filter (fun q => p q.2)).map Prod.snd = items.filter p := by
  have h : items.filter p = (items.enum.map Prod.snd).filter p := by simp
  rw [h, List.filter_map]
  rfl

theorem enum_filter_fst_nodup (p : GraphicsItem → Bool) (items : List GraphicsItem) :
    ((items.enum.filter (fun q => p q.2)).map Prod.fst).Nodup := by
  have hsub : ((items.enum.filter (fun q => p q.2)).map Prod.fst).Sublist
      (items.enum.map Prod.fst) := (List.filter_sublist _).map Prod.fst
  rw [List.enum_map_fst] at hsub
  exact (List.nodup_range _).sublist hsub

/-- The item list after handleDistanceChanged, slot by slot: a ScreeniePixmapItem
gets as z-value its rank in the sorted list, every other item is untouched. -/
theorem handleDistanceChangedWith_items
    (sort : ((Nat × GraphicsItem) → (Nat × GraphicsItem) → Bool) →
      List (Nat × GraphicsItem) → List (Nat × GraphicsItem))
    (d : ScreenieControlPrivate)
    (hperm : ∀ l, (sort (fun p1 p2 => zSort d.screenieScene p1.2 p2.2) l).Perm l) :
    (handleDistanceChangedWith sort d).screenieGraphicsScene.items =
      d.screenieGraphicsScene.items.enum.map (fun p =>
        if p.2.isScreeniePixmapItem then
          { p.2 with zValue := (((sort (fun p1 p2 => zSort d.screenieScene p1.2 p2.2)
              (d.screenieGraphicsScene.items.enum.filter
                (fun p => p.2.isScreeniePixmapItem))).map Prod.fst).indexOf p.1 : Nat) }
        else p.2) := by
  simp only [handleDistanceChangedWith]
  generalize hE : d.screenieGraphicsScene.items.enum.filter
    (fun p => p.2.isScreeniePixmapItem) = E
  generalize hS : sort (fun p1 p2 => zSort d.screenieScene p1.2 p2.2) E = S
  have hSE : S.Perm E := hS ▸ hperm E
  have hnodup : (S.map Prod.fst).Nodup := by
    rw [(hSE.map Prod.fst).nodup_iff, ← hE]
    exact enum_filter_fst_nodup _ _
  have hmemS : ∀ q : Nat × GraphicsItem, q ∈ S ↔
      d.screenieGraphicsScene.items[q.1]? = some q.2 ∧ q.2.isScreeniePixmapItem = true := by
    intro q
    rw [hSE.mem_iff, ← hE, List.mem_filter, List.mem_enum_iff_getElem?]
  apply List.ext_getElem?
  intro i
  rw [List.getElem?_map, List.getElem?_enum]
  cases hget : d.screenieGraphicsScene.items[i]? with
  | none =>
    by_cases hi : i ∈ S.map Prod.fst
    · rw [assignZValues_getElem?_of_mem _ _ _ _ hnodup hi, hget]; rfl
    · rw [assignZValues_getElem?_of_not_mem _ _ _ _ hi, hget]; rfl
  | some item =>
    by_cases hp : item.isScreeniePixmapItem = true
    · have hi : i ∈ S.map Prod.fst :=
        List.mem_map.mpr ⟨(i, item), (hmemS (i, item)).mpr ⟨hget, hp⟩, rfl⟩
      rw [assignZValues_getElem?_of_mem _ _ _ _ hnodup hi, hget]
      simp [hp]
    · have hi : i ∉ S.map Prod.fst := by
        intro hmem
        obtain ⟨q, hq, hqi⟩ := List.mem_map.mp hmem
        have h := (hmemS q).mp hq
        rw [hqi, hget] at h
        exact hp (by rw [Option.some.inj h.1]; exact h.2)
      rw [assignZValues_getElem?_of_not_mem _ _ _ _ hi, hget]
      simp [hp]

/-- The ScreeniePixmapItems after handleDistanceChanged: those of before, each with
its rank in the sorted list as z-value. -/
theorem handleDistanceChangedWith_pixmapItems
    (sort : ((Nat × GraphicsItem) → (Nat × GraphicsItem) → Bool) →
      List (Nat × GraphicsItem) → List (Nat × GraphicsItem))
    (d : ScreenieControlPrivate)
    (hperm : ∀ l, (sort (fun p1 p2 => zSort d.screenieScene p1.2 p2.2) l).Perm l) :
    getScreeniePixmapItems (handleDistanceChangedWith sort d) =
      (d.screenieGraphicsScene.items.enum.filter (fun p => p.2.isScreeniePixmapItem)).map
        (fun p => { p.2 with zValue := (((sort (fun p1 p2 => zSort d.screenieScene p1.2 p2.2)
              (d.screenieGraphicsScene.items.enum.filter
                (fun p => p.2.isScreeniePixmapItem))).map Prod.fst).indexOf p.1 : Nat) }) := by
  rw [getScreeniePixmapItems, handleDistanceChangedWith_items sort d hperm, List.filter_map]
  have hfilter : ∀ l : List (Nat × GraphicsItem),
      l.filter ((fun item : GraphicsItem => item.isScreeniePixmapItem) ∘ (fun p =>
        if p.2.isScreeniePixmapItem then
          { p.2 with zValue := (((sort (fun p1 p2 => zSort d.screenieScene p1.2 p2.2)
              (d.screenieGraphicsScene.items.enum.filter
                (fun p => p.2.isScreeniePixmapItem))).map Prod.fst).indexOf p.1 : Nat) }
        else p.2)) = l.filter (fun p => p.2.isScreeniePixmapItem) := by
    intro l
    apply List.filter_congr
    intro p _
    simp only [Function.comp]
    split <;> simp_all
  rw [hfilter]
  apply List.map_congr_left
  intro p hp
  rw [if_pos (List.mem_filter.mp hp).2]

/-- Depth order for any sort routine that returns a permutation of its input in
which no later element is less than an earlier one. -/
theorem depth_order_with
    (sort : ((Nat × GraphicsItem) → (Nat × GraphicsItem) → Bool) →
      List (Nat × GraphicsItem) → List (Nat × GraphicsItem))
    (d : ScreenieControlPrivate)
    (hperm : ∀ l, (sort (fun p1 p2 => zSort d.screenieScene p1.2 p2.2) l).Perm l)
    (hsorted : ∀ l, (sort (fun p1 p2 => zSort d.screenieScene p1.2 p2.2) l).Pairwise
      (fun x y => zSort d.screenieScene y.2 x.2 = false)) :
    ((getScreeniePixmapItems (handleDistanceChangedWith sort d)).map (fun item => item.zValue)).Perm
        ((List.range (getScreeniePixmapItems d).length).map Int.ofNat) ∧
      (∀ a ∈ getScreeniePixmapItems (handleDistanceChangedWith sort d),
        ∀ b ∈ getScreeniePixmapItems (handleDistanceChangedWith sort d),
          itemDistance d.screenieScene a > itemDistance d.screenieScene b →
            a.zValue < b.zValue) := by
  rw [handleDistanceChangedWith_pixmapItems sort d hperm]
  generalize hE : d.screenieGraphicsScene.items.enum.filter
    (fun p => p.2.isScreeniePixmapItem) = E
  generalize hS : sort (fun p1 p2 => zSort d.screenieScene p1.2 p2.2) E = S
  have hSE : S.Perm E := hS ▸ hperm E
  have hSsorted : S.Pairwise (fun x y => zSort d.screenieScene y.2 x.2 = false) :=
    hS ▸ hsorted E
  have hnodup : (S.map Prod.fst).Nodup := by
    rw [(hSE.map Prod.fst).nodup_iff, ← hE]
    exact enum_filter_fst_nodup _ _
  have hlen : (getScreeniePixmapItems d).length = (S.map Prod.fst).length := by
    rw [getScreeniePixmapItems, ← enum_filter_map_snd, hE, List.length_map, List.length_map,
      hSE.length_eq]
  constructor
  · rw [hlen, ← map_indexOf_self _ hnodup, List.map_map, List.map_map]
    have h1 : E.map ((fun item : GraphicsItem => item.zValue) ∘ fun p : Nat × GraphicsItem =>
        { p.2 with zValue := ((S.map Prod.fst).indexOf p.1 : Nat) }) =
        (E.map Prod.fst).map (Int.ofNat ∘ fun i => (S.map Prod.fst).indexOf i) := by
      rw [List.map_map]
      rfl
    rw [h1]
    exact (hSE.symm.map Prod.fst).map _
  · intro a ha b hb hdist
    obtain ⟨p, hp, rfl⟩ := List.mem_map.mp ha
    obtain ⟨q, hq, rfl⟩ := List.mem_map.mp hb
    have hpS : p ∈ S := hSE.mem_iff.mpr hp
    have hqS : q ∈ S := hSE.mem_iff.mpr hq
    have hlt : zSort d.screenieScene p.2 q.2 = true := by
      simpa [zSort, itemDistance] using hdist
    have hk : (S.map Prod.fst).indexOf p.1 < S.length := by
      have := List.indexOf_lt_length.mpr (List.mem_map_of_mem Prod.fst hpS)
      simpa using this
    have hl : (S.map Prod.fst).indexOf q.1 < S.length := by
      have := List.indexOf_lt_length.mpr (List.mem_map_of_mem Prod.fst hqS)
      simpa using this
    have hSk : S[(S.map Prod.fst).indexOf p.1] = p := by
      apply List.inj_on_of_nodup_map hnodup (List.getElem_mem _) hpS
      have := List.getElem_indexOf (a := p.1) (l := S.map Prod.fst) (by simpa using hk)
      simpa only [List.getElem_map] using this
    have hSl : S[(S.map Prod.fst).indexOf q.1] = q := by
      apply List.inj_on_of_nodup_map hnodup (List.getElem_mem _) hqS
      have := List.getElem_indexOf (a := q.1) (l := S.map Prod.fst) (by simpa using hl)
      simpa only [List.getElem_map] using this
    show (((S.map Prod.fst).indexOf p.1 : Nat) : Int) < (((S.map Prod.fst).indexOf q.1 : Nat) : Int)
    rw [Int.ofNat_lt]
    by_contra hge
    rcases Nat.lt_or_eq_of_le (Nat.le_of_not_lt hge) with h | h
    · have := (List.pairwise_iff_getElem.mp hSsorted) _ _ hl hk h
      rw [hSk, hSl, hlt] at this
      exact Bool.noConfusion this
    · have hpq : p = q := by rw [← hSk, ← hSl]; simp only [h]
      rw [hpq] at hlt
      simp [zSort] at hlt

theorem zSort_asymm (scene : ScreenieScene) (a b : Nat × GraphicsItem)
    (h : zSort scene a.2 b.2 = true) : zSort scene b.2 a.2 = false := by
  simp only [zSort, decide_eq_true_eq, decide_eq_false_iff_not] at *
  omega

theorem zSort_trans (scene : ScreenieScene) (a b c : Nat × GraphicsItem)
    (h1 : zSort scene b.2 a.2 = false) (h2 : zSort scene c.2 b.2 = false) :
    zSort scene c.2 a.2 = false := by
  simp only [zSort, decide_eq_false_iff_not] at *
  omega

/-- C2 (depth order): after handleDistanceChanged the z-values of the n
ScreeniePixmapItems are a rearrangement of 0, 1, ..., n-1 (each value on exactly
one item); an item whose model has the larger distance has the smaller z-value;
an item whose model's distance exceeds that of every other item has z-value 0;
the scene model, hence every distance, is as before. -/
theorem depth_order (d : ScreenieControlPrivate) :
    ((getScreeniePixmapItems (handleDistanceChanged d)).map (fun item => item.zValue)).Perm
        ((List.range (getScreeniePixmapItems d).length).map Int.ofNat) ∧
      (∀ a ∈ getScreeniePixmapItems (handleDistanceChanged d),
        ∀ b ∈ getScreeniePixmapItems (handleDistanceChanged d),
          itemDistance d.screenieScene a > itemDistance d.screenieScene b →
            a.zValue < b.zValue) ∧
      (∀ a ∈ getScreeniePixmapItems (handleDistanceChanged d),
        (∀ b ∈ getScreeniePixmapItems (handleDistanceChanged d), b ≠ a →
          itemDistance d.screenieScene b < itemDistance d.screenieScene a) →
        a.zValue = 0) ∧
      (handleDistanceChanged d).screenieScene = d.screenieScene := by
  have hmain := depth_order_with qSort d (fun l => qSort_perm _ l)
    (fun l => qSort_sorted _ (zSort_asymm d.screenieScene) (zSort_trans d.screenieScene) l)
  refine ⟨hmain.1, hmain.2, ?_, rfl⟩
  intro a ha hmax
  have hza : a.zValue ∈ (List.range (getScreeniePixmapItems d).length).map Int.ofNat :=
    hmain.1.subset (List.mem_map_of_mem (fun item => item.zValue) ha)
  obtain ⟨k, hk, hka⟩ := List.mem_map.mp hza
  have hn : 0 < (getScreeniePixmapItems d).length :=
    Nat.lt_of_le_of_lt (Nat.zero_le k) (List.mem_range.mp hk)
  have hz0 : Int.ofNat 0 ∈ (List.range (getScreeniePixmapItems d).length).map Int.ofNat :=
    List.mem_map_of_mem Int.ofNat (List.mem_range.mpr hn)
  obtain ⟨c, hc, hc0⟩ := List.mem_map.mp (hmain.1.symm.subset hz0)
  by_cases hca : c = a
  · rw [← hca]; exact hc0
  · have hlt := hmain.2 a ha c hc (hmax c hc hca)
    have hc0 : c.zValue = 0 := hc0
    have hnonneg : 0 ≤ a.zValue := by rw [← hka]; exact Int.ofNat_nonneg k
    omega

/-! ## What the scene operations do to the scene model -/

theorem addModel_screenieScene (env : Collaborators) (d : ScreenieControlPrivate)
    (m : ScreenieModel) :
    (addModel env d m).screenieScene =
      { d.screenieScene with models := d.screenieScene.models ++ [m] } := rfl

theorem addModel_models (env : Collaborators) (d : ScreenieControlPrivate) (m : ScreenieModel) :
    (addModel env d m).screenieScene.models = d.screenieScene.models ++ [m] := rfl

theorem removeModel_models (d : ScreenieControlPrivate) (ref : Nat) :
    (removeModel d ref).screenieScene.models =
      d.screenieScene.models.eraseP (fun m => m.ref == ref) := by
  unfold removeModel
  split
  · rfl
  · rename_i h
    rw [List.eraseP_of_forall_not]
    intro m hm href
    exact h (List.any_eq_true.mpr ⟨m, hm, href⟩)

theorem modifyModel_models (ref : Nat) (f : ScreenieModel → ScreenieModel)
    (d : ScreenieControlPrivate) :
    (modifyModel ref f d).screenieScene.models =
      d.screenieScene.models.map (fun m => if m.ref = ref then f m else m) := rfl

theorem eraseP_ref_eq_filter (models : List ScreenieModel) (ref : Nat)
    (hnodup : (models.map (fun m => m.ref)).Nodup) :
    models.eraseP (fun m => m.ref == ref) = models.filter (fun m => !(m.ref == ref)) := by
  induction models with
  | nil => rfl
  | cons a l ih =>
    rw [List.map_cons, List.nodup_cons] at hnodup
    by_cases h : a.ref = ref
    · have hall : ∀ m ∈ l, (!(m.ref == ref)) = true := by
        intro m hm
        have hne : m.ref ≠ ref := by
          intro heq
          apply hnodup.1
          rw [h, ← heq]
          exact List.mem_map_of_mem (fun m => m.ref) hm
        simpa using hne
      simp [List.eraseP_cons, h, List.filter_eq_self.mpr hall]
    · simp [List.eraseP_cons, h, ih hnodup.2]

theorem le_foldr_max (l : List Nat) (n : Nat) (h : n ∈ l) : n ≤ l.foldr max 0 := by
  induction l with
  | nil => cases h
  | cons a l ih =>
    rcases List.mem_cons.mp h with h | h
    · subst h; simp
    · have := ih h
      simp only [List.foldr_cons]
      omega

theorem freshRef_not_mem (d : ScreenieControlPrivate) :
    freshRef d ∉ d.screenieScene.models.map (fun m => m.ref) := by
  intro h
  have := le_foldr_max _ _ (List.mem_append_left
    (d.screenieGraphicsScene.items.map (fun item => item.screenieModel)) h)
  unfold freshRef at this
  omega

theorem freshRef_not_item (d : ScreenieControlPrivate) :
    freshRef d ∉ d.screenieGraphicsScene.items.map (fun item => item.screenieModel) := by
  intro h
  have := le_foldr_max _ _ (List.mem_append_right
    (d.screenieScene.models.map (fun m => m.ref)) h)
  unfold freshRef at this
  omega

/-! ## Frame of a content update: only the target is touched -/

theorem modify_frame (models : List ScreenieModel) (ref : Nat)
    (f : ScreenieModel → ScreenieModel) (hf : ∀ m, (f m).ref = m.ref)
    (hnodup : (models.map (fun m => m.ref)).Nodup) :
    (models.map (fun m => if m.ref = ref then f m else m)).length = models.length ∧
      (∀ m ∈ models, m.ref ≠ ref → m ∈ models.map (fun m => if m.ref = ref then f m else m)) ∧
      ((models.map (fun m => if m.ref = ref then f m else m)).map (fun m => m.ref)).Nodup := by
  refine ⟨by simp, ?_, ?_⟩
  · intro m hm hne
    exact List.mem_map.mpr ⟨m, hm, by simp [hne]⟩
  · have h : (models.map (fun m => if m.ref = ref then f m else m)).map (fun m => m.ref) =
        models.map (fun m => m.ref) := by
      rw [List.map_map]
      apply List.map_congr_left
      intro m _
      simp only [Function.comp]
      split
      · exact hf m
      · rfl
    rw [h]
    exact hnodup

theorem replace_frame (models : List ScreenieModel) (target created : ScreenieModel)
    (hnodup : (models.map (fun m => m.ref)).Nodup) (hmem : target ∈ models)
    (hfresh : created.ref ∉ models.map (fun m => m.ref)) :
    (models.eraseP (fun m => m.ref == target.ref) ++ [created]).length = models.length ∧
      (∀ m ∈ models, m.ref ≠ target.ref →
        m ∈ models.eraseP (fun m => m.ref == target.ref) ++ [created]) ∧
      ((models.eraseP (fun m => m.ref == target.ref) ++ [created]).map (fun m => m.ref)).Nodup := by
  have hpos : 0 < models.length := List.length_pos_of_mem hmem
  refine ⟨?_, ?_, ?_⟩
  · rw [List.length_append, List.length_eraseP_of_mem hmem (by simp)]
    simp only [List.length_singleton]
    omega
  · intro m hm hne
    rw [eraseP_ref_eq_filter _ _ hnodup]
    exact List.mem_append_left _ (List.mem_filter.mpr ⟨hm, by simpa using hne⟩)
  · rw [eraseP_ref_eq_filter _ _ hnodup, List.map_append, List.nodup_append]
    refine ⟨hnodup.sublist ((List.filter_sublist _).map _), by simp, ?_⟩
    intro r hr hr2
    simp only [List.map_cons, List.map_nil, List.mem_singleton] at hr2
    subst hr2
    exact hfresh (((List.filter_sublist _).map _).subset hr)

theorem updatePixmapModel_frame (env : Collaborators) (pixmap : QPixmap) (target : ScreenieModel)
    (d : ScreenieControlPrivate) (hdistinct : d.screenieScene.DistinctRefs)
    (hmem : target ∈ d.screenieScene.models) :
    (updatePixmapModel env pixmap target d).screenieScene.models.length =
        d.screenieScene.models.length ∧
      (∀ m ∈ d.screenieScene.models, m.ref ≠ target.ref →
        m ∈ (updatePixmapModel env pixmap target d).screenieScene.models) ∧
      (updatePixmapModel env pixmap target d).screenieScene.DistinctRefs := by
  by_cases hnull : pixmap.isNull = true
  · rw [updatePixmapModel_of_isNull env pixmap target d hnull]
    exact ⟨rfl, fun m hm _ => hm, hdistinct⟩
  · unfold updatePixmapModel
    simp only [hnull, Bool.not_false, if_true]
    split
    · exact modify_frame _ _ _ (fun _ => rfl) hdistinct
    · simp only [ScreenieScene.DistinctRefs, addModel_models, removeModel_models]
      exact replace_frame _ _ _ hdistinct hmem (freshRef_not_mem d)

theorem updateFilePathModel_frame (env : Collaborators) (filePath : String)
    (target : ScreenieModel) (d : ScreenieControlPrivate)
    (hdistinct : d.screenieScene.DistinctRefs) (hmem : target ∈ d.screenieScene.models) :
    (updateFilePathModel env filePath target d).screenieScene.models.length =
        d.screenieScene.models.length ∧
      (∀ m ∈ d.screenieScene.models, m.ref ≠ target.ref →
        m ∈ (updateFilePathModel env filePath target d).screenieScene.models) ∧
      (updateFilePathModel env filePath target d).screenieScene.DistinctRefs := by
  unfold updateFilePathModel
  split
  · exact modify_frame _ _ _ (fun m => setFilePath_ref filePath m) hdistinct
  · simp only [ScreenieScene.DistinctRefs, addModel_models, removeModel_models]
    refine replace_frame _ _ _ hdistinct hmem ?_
    have h := freshRef_not_mem d
    cases target.kind <;> exact h

/-- Folding an update over pairs of a dropped item and a target: when the targets
are distinct models of the scene, the scene keeps its size, every model that is not
a target stays, and addresses stay distinct. -/
theorem foldl_update_frame {β : Type}
    (step : β → ScreenieModel → ScreenieControlPrivate → ScreenieControlPrivate)
    (hstep : ∀ x target d, d.screenieScene.DistinctRefs → target ∈ d.screenieScene.models →
      (step x target d).screenieScene.models.length = d.screenieScene.models.length ∧
      (∀ m ∈ d.screenieScene.models, m.ref ≠ target.ref →
        m ∈ (step x target d).screenieScene.models) ∧
      (step x target d).screenieScene.DistinctRefs)
    (pairs : List (β × ScreenieModel)) (d : ScreenieControlPrivate)
    (hdistinct : d.screenieScene.DistinctRefs)
    (hsub : ∀ p ∈ pairs, p.2 ∈ d.screenieScene.models)
    (hnodup : (pairs.map (fun p => p.2.ref)).Nodup) :
    (pairs.foldl (fun d p => step p.1 p.2 d) d).screenieScene.models.length =
        d.screenieScene.models.length ∧
      (∀ m ∈ d.screenieScene.models, m.ref ∉ pairs.map (fun p => p.2.ref) →
        m ∈ (pairs.foldl (fun d p => step p.1 p.2 d) d).screenieScene.models) ∧
      (pairs.foldl (fun d p => step p.1 p.2 d) d).screenieScene.DistinctRefs := by
  induction pairs generalizing d with
  | nil => exact ⟨rfl, fun m hm _ => hm, hdistinct⟩
  | cons p rest ih =>
    rw [List.map_cons, List.nodup_cons] at hnodup
    have hp := hstep p.1 p.2 d hdistinct (hsub p (List.mem_cons_self _ _))
    have hrest : ∀ q ∈ rest, q.2 ∈ (step p.1 p.2 d).screenieScene.models := by
      intro q hq
      refine hp.2.1 q.2 (hsub q (List.mem_cons_of_mem _ hq)) ?_
      intro heq
      apply hnodup.1
      rw [← heq]
      exact List.mem_map_of_mem (fun p => p.2.ref) hq
    have hih := ih (step p.1 p.2 d) hp.2.2 hrest hnodup.2
    simp only [List.foldl_cons]
    refine ⟨hih.1.trans hp.1, ?_, hih.2.2⟩
    intro m hm hnot
    simp only [List.map_cons, List.mem_cons, not_or] at hnot
    exact hih.2.1 m (hp.2.1 m hm hnot.1) hnot.2

/-! ## The drop loops -/

theorem filePathsDropLoop_eq_foldl (env : Collaborators) (filePaths : List String) (i : Nat)
    (it : List ScreenieModel) (d : ScreenieControlPrivate) :
    filePathsDropLoop env filePaths filePaths.length i it d =
      ((filePaths.drop i).zip it).foldl (fun d p => updateFilePathModel env p.1 p.2 d) d := by
  induction it generalizing i d with
  | nil => simp [filePathsDropLoop]
  | cons templateModel it ih =>
    by_cases hi : i < filePaths.length
    · rw [filePathsDropLoop, if_pos hi, List.getElem?_eq_getElem hi, List.drop_eq_getElem_cons hi]
      simp only [List.zip_cons_cons, List.foldl_cons]
      exact ih (i + 1) _
    · rw [filePathsDropLoop, if_neg hi, List.drop_eq_nil_of_le (Nat.le_of_not_lt hi)]
      rfl

theorem pixmapsDropLoop_eq_foldl (env : Collaborators) (pixmaps : List QPixmap) (i : Nat)
    (it : List ScreenieModel) (d : ScreenieControlPrivate) :
    pixmapsDropLoop env pixmaps pixmaps.length i it d =
      ((pixmaps.drop i).zip it).foldl (fun d p => updatePixmapModel env p.1 p.2 d) d := by
  induction it generalizing i d with
  | nil => simp [pixmapsDropLoop]
  | cons templateModel it ih =>
    by_cases hi : i < pixmaps.length
    · rw [pixmapsDropLoop, if_pos hi, List.getElem?_eq_getElem hi, List.drop_eq_getElem_cons hi]
      simp only [List.zip_cons_cons, List.foldl_cons]
      exact ih (i + 1) _
    · rw [pixmapsDropLoop, if_neg hi, List.drop_eq_nil_of_le (Nat.le_of_not_lt hi)]
      rfl

theorem zip_map_snd_eq_take {β γ : Type} (l1 : List β) (l2 : List γ) :
    (l1.zip l2).map Prod.snd = l2.take l1.length := by
  induction l1 generalizing l2 with
  | nil => simp
  | cons a l ih =>
    cases l2 with
    | nil => simp
    | cons b l2 => simp [ih]

theorem zip_targets_frame {β : Type} (dropped : List β) (templateModels : List ScreenieModel)
    (models : List ScreenieModel)
    (hsub : ∀ t ∈ templateModels, t ∈ models)
    (hnodup : (templateModels.map (fun m => m.ref)).Nodup) :
    (∀ p ∈ dropped.zip templateModels, p.2 ∈ models) ∧
      ((dropped.zip templateModels).map (fun p => p.2.ref)).Nodup ∧
      (∀ t ∈ templateModels.drop dropped.length,
        t.ref ∉ (dropped.zip templateModels).map (fun p => p.2.ref)) := by
  have hsnd : (dropped.zip templateModels).map (fun p => p.2.ref) =
      ((templateModels.take dropped.length).map (fun m => m.ref)) := by
    rw [← zip_map_snd_eq_take, List.map_map]
    rfl
  refine ⟨?_, ?_, ?_⟩
  · intro p hp
    exact hsub p.2 (List.of_mem_zip hp).2
  · rw [hsnd]
    exact hnodup.sublist ((List.take_sublist _ _).map _)
  · intro t ht hmem
    rw [hsnd, List.map_take] at hmem
    have ht2 : t.ref ∈ (templateModels.map (fun m => m.ref)).drop dropped.length := by
      rw [← List.map_drop]
      exact List.mem_map_of_mem (fun m => m.ref) ht
    exact List.disjoint_take_drop hnodup (Nat.le_refl _) hmem ht2

/-- C3 (drop pairing): when the scene has templates, a drop of file paths or of
pixmaps is exactly the sequence of content updates that pairs the i-th dropped item
with the i-th template of getOrderedTemplates(), min(n, m) of them; addImages is
not called.  When the ordered templates are distinct models of a scene with
distinct addresses, the scene keeps its number of models and every template at an
index from n on is still in the scene, untouched. -/
theorem drop_pairing (env : Collaborators) (d : ScreenieControlPrivate)
    (centerPosition : QPointF) (htemplates : d.screenieScene.hasTemplates = true) :
    (∀ filePaths : List String,
      handleFilePathsDrop env filePaths centerPosition d =
        (filePaths.zip (env.getOrderedTemplates d.screenieScene)).foldl
          (fun d p => updateFilePathModel env p.1 p.2 d) d ∧
      (filePaths.zip (env.getOrderedTemplates d.screenieScene)).length =
        min filePaths.length (env.getOrderedTemplates d.screenieScene).length) ∧
    (∀ pixmaps : List QPixmap,
      handlePixmapsDrop env pixmaps centerPosition d =
        (pixmaps.zip (env.getOrderedTemplates d.screenieScene)).foldl
          (fun d p => updatePixmapModel env p.1 p.2 d) d ∧
      (pixmaps.zip (env.getOrderedTemplates d.screenieScene)).length =
        min pixmaps.length (env.getOrderedTemplates d.screenieScene).length) ∧
    (d.screenieScene.DistinctRefs →
      (∀ t ∈ env.getOrderedTemplates d.screenieScene, t ∈ d.screenieScene.models) →
      ((env.getOrderedTemplates d.screenieScene).map (fun m => m.ref)).Nodup →
      (∀ filePaths : List String,
        (handleFilePathsDrop env filePaths centerPosition d).screenieScene.models.length =
          d.screenieScene.models.length ∧
        ∀ t ∈ (env.getOrderedTemplates d.screenieScene).drop filePaths.length,
          t ∈ (handleFilePathsDrop env filePaths centerPosition d).screenieScene.models) ∧
      (∀ pixmaps : List QPixmap,
        (handlePixmapsDrop env pixmaps centerPosition d).screenieScene.models.length =
          d.screenieScene.models.length ∧
        ∀ t ∈ (env.getOrderedTemplates d.screenieScene).drop pixmaps.length,
          t ∈ (handlePixmapsDrop env pixmaps centerPosition d).screenieScene.models)) := by
  have hfile : ∀ filePaths : List String,
      handleFilePathsDrop env filePaths centerPosition d =
        (filePaths.zip (env.getOrderedTemplates d.screenieScene)).foldl
          (fun d p => updateFilePathModel env p.1 p.2 d) d := by
    intro filePaths
    have h := filePathsDropLoop_eq_foldl env filePaths 0
      (env.getOrderedTemplates d.screenieScene) d
    rw [List.drop_zero] at h
    simp only [handleFilePathsDrop, htemplates, Bool.not_true, Bool.false_eq_true, if_false]
    exact h
  have hpix : ∀ pixmaps : List QPixmap,
      handlePixmapsDrop env pixmaps centerPosition d =
        (pixmaps.zip (env.getOrderedTemplates d.screenieScene)).foldl
          (fun d p => updatePixmapModel env p.1 p.2 d) d := by
    intro pixmaps
    have h := pixmapsDropLoop_eq_foldl env pixmaps 0
      (env.getOrderedTemplates d.screenieScene) d
    rw [List.drop_zero] at h
    simp only [handlePixmapsDrop, htemplates, Bool.not_true, Bool.false_eq_true, if_false]
    exact h
  refine ⟨fun filePaths => ⟨hfile filePaths, List.length_zip _ _⟩,
    fun pixmaps => ⟨hpix pixmaps, List.length_zip _ _⟩, ?_⟩
  intro hdistinct hsub hnodup
  constructor
  · intro filePaths
    have hz := zip_targets_frame filePaths _ _ hsub hnodup
    have hf := foldl_update_frame (updateFilePathModel env)
      (fun x target d => updateFilePathModel_frame env x target d)
      (filePaths.zip (env.getOrderedTemplates d.screenieScene)) d hdistinct hz.1 hz.2.1
    rw [hfile filePaths]
    exact ⟨hf.1, fun t ht => hf.2.1 t (hsub t (List.mem_of_mem_drop ht)) (hz.2.2 t ht)⟩
  · intro pixmaps
    have hz := zip_targets_frame pixmaps _ _ hsub hnodup
    have hf := foldl_update_frame (updatePixmapModel env)
      (fun x target d => updatePixmapModel_frame env x target d)
      (pixmaps.zip (env.getOrderedTemplates d.screenieScene)) d hdistinct hz.1 hz.2.1
    rw [hpix pixmaps]
    exact ⟨hf.1, fun t ht => hf.2.1 t (hsub t (List.mem_of_mem_drop ht)) (hz.2.2 t ht)⟩

/-- Witness of C3: two pixmaps dropped on the concrete scene, which has one
template, make one update, of the template with the first pixmap. -/
theorem drop_pairing_witness :
    exampleState.screenieScene.hasTemplates = true ∧
      handlePixmapsDrop exampleEnv [examplePixmap, QPixmap.null] ⟨5, 5⟩ exampleState =
        updatePixmapModel exampleEnv examplePixmap exampleTemplateModel exampleState :=
  ⟨rfl, ((drop_pairing exampleEnv exampleState ⟨5, 5⟩ rfl).2.1 [examplePixmap, QPixmap.null]).1⟩

/-! ## Visual items and their back-references -/

theorem setZValueAt_map {β : Type} (f : GraphicsItem → β)
    (hf : ∀ item z, f { item with zValue := z } = f item) (slot : Nat) (z : Int)
    (items : List GraphicsItem) : (setZValueAt slot z items).map f = items.map f := by
  induction items generalizing slot with
  | nil => cases slot <;> rfl
  | cons item items ih =>
    cases slot with
    | zero => simp [setZValueAt, hf]
    | succ slot => simp [setZValueAt, ih]

theorem assignZValues_map {β : Type} (f : GraphicsItem → β)
    (hf : ∀ item z, f { item with zValue := z } = f item) (sorted : List (Nat × GraphicsItem))
    (z : Int) (items : List GraphicsItem) : (assignZValues sorted z items).map f = items.map f := by
  induction sorted generalizing z items with
  | nil => rfl
  | cons p rest ih =>
    obtain ⟨slot, item⟩ := p
    simp only [assignZValues]
    rw [ih, setZValueAt_map f hf]

theorem backReferences_eq (items : List GraphicsItem) :
    (items.filter (fun item => item.isScreeniePixmapItem)).map (fun item => item.screenieModel) =
      (items.map (fun item => (item.isScreeniePixmapItem, item.screenieModel))).filterMap
        (fun p => if p.1 then some p.2 else none) := by
  induction items with
  | nil => rfl
  | cons item items ih =>
    by_cases h : item.isScreeniePixmapItem = true
    · simp [List.filter_cons, h, ih]
    · simp [List.filter_cons, h, ih]

theorem handleDistanceChanged_backReferences (d : ScreenieControlPrivate) :
    itemBackReferences (handleDistanceChanged d) = itemBackReferences d := by
  simp only [itemBackReferences, getScreeniePixmapItems, backReferences_eq]
  congr 1
  exact assignZValues_map (fun item => (item.isScreeniePixmapItem, item.screenieModel))
    (fun _ _ => rfl) _ _ _

theorem handleModelAdded_backReferences (env : Collaborators) (d : ScreenieControlPrivate)
    (m : ScreenieModel) :
    itemBackReferences (handleModelAdded env d m) = itemBackReferences d ++ [m.ref] := by
  unfold handleModelAdded
  rw [handleDistanceChanged_backReferences]
  simp only [itemBackReferences, getScreeniePixmapItems, backReferences_eq]
  simp only [List.map_append, List.map_map, List.filterMap_append, List.map_cons, List.map_nil,
    List.filterMap_cons, List.filterMap_nil, if_true]
  rfl

theorem handleModelRemoved_backReferences (d : ScreenieControlPrivate) (ref : Nat) :
    itemBackReferences (handleModelRemoved d ref) = (itemBackReferences d).erase ref := by
  simp only [itemBackReferences, getScreeniePixmapItems, handleModelRemoved]
  induction d.screenieGraphicsScene.items with
  | nil => rfl
  | cons item items ih =>
    by_cases hp : item.isScreeniePixmapItem = true
    · by_cases hr : item.screenieModel = ref
      · simp [List.eraseP_cons, List.filter_cons, hp, hr]
      · have hne : (item.screenieModel == ref) = false := by simpa using hr
        simp [List.eraseP_cons, List.filter_cons, hp, hr, hne, List.erase_cons_tail, ih]
    · simp [List.eraseP_cons, List.filter_cons, hp, ih]

theorem addModel_backReferences (env : Collaborators) (d : ScreenieControlPrivate)
    (m : ScreenieModel) :
    itemBackReferences (addModel env d m) = itemBackReferences d ++ [m.ref] :=
  handleModelAdded_backReferences env _ m

theorem eraseP_ref_map (models : List ScreenieModel) (ref : Nat) :
    (models.eraseP (fun m => m.ref == ref)).map (fun m => m.ref) =
      (models.map (fun m => m.ref)).erase ref := by
  induction models with
  | nil => rfl
  | cons a l ih =>
    by_cases h : a.ref = ref
    · simp [List.eraseP_cons, h]
    · have hne : (a.ref == ref) = false := by simpa using h
      simp [List.eraseP_cons, h, hne, List.erase_cons_tail, ih]

theorem removeModel_refs (d : ScreenieControlPrivate) (ref : Nat) :
    (removeModel d ref).screenieScene.models.map (fun m => m.ref) =
      (d.screenieScene.models.map (fun m => m.ref)).erase ref := by
  rw [removeModel_models, eraseP_ref_map]

theorem removeModel_of_not_mem (d : ScreenieControlPrivate) (ref : Nat)
    (h : ref ∉ d.screenieScene.models.map (fun m => m.ref)) : removeModel d ref = d := by
  unfold removeModel
  rw [if_neg]
  intro hany
  obtain ⟨m, hm, href⟩ := List.any_eq_true.mp hany
  exact h (List.mem_map.mpr ⟨m, hm, by simpa using href⟩)

theorem removeModel_backReferences (d : ScreenieControlPrivate) (ref : Nat)
    (h : ref ∈ d.screenieScene.models.map (fun m => m.ref)) :
    itemBackReferences (removeModel d ref) = (itemBackReferences d).erase ref := by
  unfold removeModel
  rw [if_pos]
  · exact handleModelRemoved_backReferences _ ref
  · obtain ⟨m, hm, href⟩ := List.mem_map.mp h
    exact List.any_eq_true.mpr ⟨m, hm, by simpa using href⟩

theorem foldl_handleModelAdded (env : Collaborators) (models : List ScreenieModel)
    (d : ScreenieControlPrivate) :
    itemBackReferences (models.foldl (handleModelAdded env) d) =
        itemBackReferences d ++ models.map (fun m => m.ref) ∧
      (models.foldl (handleModelAdded env) d).screenieScene = d.screenieScene := by
  induction models generalizing d with
  | nil => simp
  | cons m models ih =>
    have h := ih (handleModelAdded env d m)
    rw [handleModelAdded_backReferences] at h
    simp only [List.foldl_cons, List.map_cons]
    refine ⟨by rw [h.1, List.append_assoc]; rfl, h.2.trans rfl⟩

theorem updateScene_backReferences (env : Collaborators) (d : ScreenieControlPrivate) :
    itemBackReferences (updateScene env d) = d.screenieScene.models.map (fun m => m.ref) ∧
      (updateScene env d).screenieScene = d.screenieScene := by
  unfold updateScene
  have h := foldl_handleModelAdded env d.screenieScene.models
    (handleBackgroundChanged { d with screenieGraphicsScene.items := [] })
  have hitems : itemBackReferences
      (handleBackgroundChanged { d with screenieGraphicsScene.items := [] }) = [] := by
    unfold handleBackgroundChanged
    split <;> rfl
  have hscene : (handleBackgroundChanged
      { d with screenieGraphicsScene.items := [] }).screenieScene = d.screenieScene := by
    unfold handleBackgroundChanged
    split <;> rfl
  rw [hitems, hscene] at h
  simpa using h

theorem backReferences_perm_apply (env : Collaborators) (d : ScreenieControlPrivate)
    (op : SceneOp)
    (hperm : (itemBackReferences d).Perm (d.screenieScene.models.map (fun m => m.ref))) :
    (itemBackReferences (op.apply env d)).Perm
      ((op.apply env d).screenieScene.models.map (fun m => m.ref)) := by
  cases op with
  | addModel m =>
    show (itemBackReferences (addModel env d m)).Perm
      ((addModel env d m).screenieScene.models.map (fun m => m.ref))
    rw [addModel_backReferences, addModel_models, List.map_append]
    exact hperm.append_right _
  | removeModel ref =>
    show (itemBackReferences (removeModel d ref)).Perm
      ((removeModel d ref).screenieScene.models.map (fun m => m.ref))
    by_cases h : ref ∈ d.screenieScene.models.map (fun m => m.ref)
    · rw [removeModel_backReferences d ref h, removeModel_refs]
      exact hperm.erase ref
    · rw [removeModel_of_not_mem d ref h]
      exact hperm
  | updateScene =>
    have h := updateScene_backReferences env d
    show (itemBackReferences (updateScene env d)).Perm
      ((updateScene env d).screenieScene.models.map (fun m => m.ref))
    rw [h.1, h.2]

theorem backReferences_perm_runOps (env : Collaborators) (ops : List SceneOp)
    (d : ScreenieControlPrivate)
    (hperm : (itemBackReferences d).Perm (d.screenieScene.models.map (fun m => m.ref))) :
    (itemBackReferences (runOps env ops d)).Perm
      ((runOps env ops d).screenieScene.models.map (fun m => m.ref)) := by
  induction ops generalizing d with
  | nil => exact hperm
  | cons op rest ih => exact ih (op.apply env d) (backReferences_perm_apply env d op hperm)

theorem distinctRefs_apply (env : Collaborators) (d : ScreenieControlPrivate) (op : SceneOp)
    (hdistinct : d.screenieScene.DistinctRefs) (hfresh : FreshAdds env d [op]) :
    (op.apply env d).screenieScene.DistinctRefs := by
  cases op with
  | addModel m =>
    have hnew : m.ref ∉ d.screenieScene.models.map (fun m => m.ref) := hfresh.1
    show ((addModel env d m).screenieScene.models.map (fun m => m.ref)).Nodup
    rw [addModel_models, List.map_append, List.nodup_append]
    refine ⟨hdistinct, by simp, ?_⟩
    intro r hr hr2
    simp only [List.map_cons, List.map_nil, List.mem_singleton] at hr2
    subst hr2
    exact hnew hr
  | removeModel ref =>
    show ((removeModel d ref).screenieScene.models.map (fun m => m.ref)).Nodup
    rw [removeModel_refs]
    exact hdistinct.sublist (List.erase_sublist _ _)
  | updateScene =>
    show (updateScene env d).screenieScene.DistinctRefs
    rw [(updateScene_backReferences env d).2]
    exact hdistinct

theorem distinctRefs_runOps (env : Collaborators) (ops : List SceneOp)
    (d : ScreenieControlPrivate) (hdistinct : d.screenieScene.DistinctRefs)
    (hfresh : FreshAdds env d ops) : (runOps env ops d).screenieScene.DistinctRefs := by
  induction ops generalizing d with
  | nil => exact hdistinct
  | cons op rest ih =>
    have hstep : (op.apply env d).screenieScene.DistinctRefs := by
      apply distinctRefs_apply env d op hdistinct
      cases op with
      | addModel m => exact ⟨hfresh.1, trivial⟩
      | removeModel ref => trivial
      | updateScene => trivial
    have hrest : FreshAdds env (op.apply env d) rest := by
      cases op with
      | addModel m => exact hfresh.2
      | removeModel ref => exact hfresh
      | updateScene => exact hfresh
    exact ih (op.apply env d) hstep hrest

theorem filter_backReference_length (items : List GraphicsItem) (ref : Nat) :
    (items.filter (fun item => item.screenieModel == ref)).length =
      (items.map (fun item => item.screenieModel)).count ref := by
  induction items with
  | nil => rfl
  | cons item items ih =>
    by_cases h : item.screenieModel = ref
    · simp [List.filter_cons, h, ih]
    · have hne : (item.screenieModel == ref) = false := by simpa using h
      simp [List.filter_cons, hne, ih, List.count_cons, h]

/-- C4 (the 1:1 invariant): from a state in which the Visual Items correspond one
to one to the models of the scene, after any sequence of model additions, model
removals and updateScene() calls, delivered through handleModelAdded and
handleModelRemoved, there are as many ScreeniePixmapItems as models and their
back-references are, up to order, the addresses of the models; when every added
model is a new object, every model of the scene is back-referenced by exactly one
item.  Step by step: model-added appends exactly one item, back-referencing the
new model; model-removed takes out exactly one item back-referencing the removed
model; updateScene() leaves one item per model. -/
theorem one_to_one_invariant (env : Collaborators) (d : ScreenieControlPrivate)
    (ops : List SceneOp) (hinv : OneToOne d) :
    (itemBackReferences (runOps env ops d)).Perm
        ((runOps env ops d).screenieScene.models.map (fun m => m.ref)) ∧
      (getScreeniePixmapItems (runOps env ops d)).length =
        (runOps env ops d).screenieScene.models.length ∧
      (FreshAdds env d ops →
        OneToOne (runOps env ops d) ∧
        ∀ m ∈ (runOps env ops d).screenieScene.models,
          ((getScreeniePixmapItems (runOps env ops d)).filter
            (fun item => item.screenieModel == m.ref)).length = 1) ∧
      (∀ (s : ScreenieControlPrivate) (m : ScreenieModel),
        itemBackReferences (handleModelAdded env s m) = itemBackReferences s ++ [m.ref]) ∧
      (∀ (s : ScreenieControlPrivate) (ref : Nat),
        itemBackReferences (handleModelRemoved s ref) = (itemBackReferences s).erase ref) ∧
      (∀ s : ScreenieControlPrivate,
        itemBackReferences (updateScene env s) = s.screenieScene.models.map (fun m => m.ref)) := by
  have hperm := backReferences_perm_runOps env ops d hinv.1
  refine ⟨hperm, ?_, ?_, handleModelAdded_backReferences env, handleModelRemoved_backReferences,
    fun s => (updateScene_backReferences env s).1⟩
  · have hlen := hperm.length_eq
    simpa [itemBackReferences] using hlen
  · intro hfresh
    have hdistinct := distinctRefs_runOps env ops d hinv.2 hfresh
    refine ⟨⟨hperm, hdistinct⟩, ?_⟩
    intro m hm
    rw [filter_backReference_length]
    have hcount : (itemBackReferences (runOps env ops d)).count m.ref =
        ((runOps env ops d).screenieScene.models.map (fun m => m.ref)).count m.ref :=
      hperm.count_eq m.ref
    have hone : ((runOps env ops d).screenieScene.models.map (fun m => m.ref)).count m.ref = 1 :=
      List.count_eq_one_of_mem hdistinct (List.mem_map_of_mem (fun m => m.ref) hm)
    rw [← hone, ← hcount]
    rfl

/-- Witness of C4: the concrete scene is in one-to-one correspondence, the model
added by the concrete sequence is new, and after the sequence the correspondence
holds. -/
theorem one_to_one_invariant_witness :
    OneToOne exampleState ∧ FreshAdds exampleEnv exampleState exampleOps ∧
      OneToOne (runOps exampleEnv exampleOps exampleState) :=
  ⟨by decide, ⟨by decide, trivial⟩,
    ((one_to_one_invariant exampleEnv exampleState exampleOps (by decide)).2.2.1
      ⟨by decide, trivial⟩).1⟩

/-! ## Conversion of a file-path model to a pixmap model -/

/-- C5 as amended (conversion identity, the centre in exact arithmetic):
updatePixmapModel with a non-null pixmap on a file-path model of the scene replaces
the model: the scene afterwards is the old one without the target, followed by one
new pixmap model at a new address (so the number of models is unchanged and the
target is gone); the new model has the rotation, distance, reflection flag,
reflection offset and reflection opacity of the target and, the position being
computed in exact arithmetic, the centre of the target.  Evaluated in double, as
the code does, the result is the same but for the position of the new model,
which is the rounded calculateItemPositionDouble. -/
theorem conversion_identity (env : Collaborators) (d : ScreenieControlPrivate)
    (target : ScreenieModel) (pixmap : QPixmap) (hdistinct : d.screenieScene.DistinctRefs)
    (hmem : target ∈ d.screenieScene.models) (hkind : target.isFilePathModel = true)
    (hnull : pixmap.isNull = false) :
    ∃ created : ScreenieModel,
      (updatePixmapModel env pixmap target d).screenieScene.models =
          d.screenieScene.models.filter (fun m => !(m.ref == target.ref)) ++ [created] ∧
        (updatePixmapModel env pixmap target d).screenieScene.models.length =
          d.screenieScene.models.length ∧
        (∀ m ∈ (updatePixmapModel env pixmap target d).screenieScene.models, m ≠ target) ∧
        created.ref ∉ d.screenieScene.models.map (fun m => m.ref) ∧
        created.kind = .pixmap pixmap ∧
        created.center env = target.center env ∧
        created.rotation = target.rotation ∧
        created.distance = target.distance ∧
        created.reflectionEnabled = target.reflectionEnabled ∧
        created.reflectionOffset = target.reflectionOffset ∧
        created.reflectionOpacity = target.reflectionOpacity ∧
        (updatePixmapModelDouble env pixmap target d).screenieScene.models =
          d.screenieScene.models.filter (fun m => !(m.ref == target.ref)) ++
            [created.setPosition
              (calculateItemPositionDouble target.position (target.getSize env) pixmap.size)] := by
  have hnotPixmap : target.isPixmapModel = false := by
    unfold ScreenieModel.isFilePathModel at hkind
    unfold ScreenieModel.isPixmapModel
    split at hkind
    · rename_i h; rw [h]
    · cases hkind
  have hactual : (match target.kind with
      | .template _ sizeFitter => scaleToTemplate env sizeFitter pixmap
      | _ => pixmap) = pixmap := by
    unfold ScreenieModel.isFilePathModel at hkind
    split at hkind
    · rename_i h; rw [h]
    · cases hkind
  have hmodels : (updatePixmapModel env pixmap target d).screenieScene.models =
      d.screenieScene.models.filter (fun m => !(m.ref == target.ref)) ++
        [((newModel (freshRef d) (.pixmap pixmap)).convert target).setPosition
          (calculateItemPosition target.position (target.getSize env) pixmap.size)] := by
    unfold updatePixmapModel
    simp only [hnull, hnotPixmap, Bool.not_false, if_true, Bool.false_eq_true, if_false, hactual]
    rw [addModel_models, removeModel_models, eraseP_ref_eq_filter _ _ hdistinct]
  refine ⟨_, hmodels, ?_, ?_, freshRef_not_mem d, rfl, ?_, rfl, rfl, rfl, rfl, rfl, ?_⟩
  rotate_left 3
  · unfold updatePixmapModelDouble
    simp only [hnull, hnotPixmap, Bool.not_false, if_true, Bool.false_eq_true, if_false, hactual]
    rw [addModel_models, removeModel_models, eraseP_ref_eq_filter _ _ hdistinct]
    rfl
  · exact (updatePixmapModel_frame env pixmap target d hdistinct hmem).1
  · intro m hm heq
    rw [hmodels] at hm
    rcases List.mem_append.mp hm with h | h
    · have := (List.mem_filter.mp h).2
      rw [heq] at this
      simp at this
    · rw [List.mem_singleton] at h
      have href : m.ref = freshRef d := by rw [h]; rfl
      apply freshRef_not_mem d
      rw [← href, heq]
      exact List.mem_map_of_mem (fun m => m.ref) hmem
  · exact boxCenter_calculateItemPosition target.position (target.getSize env) pixmap.size

/-- Witness of C5: the file-path model of the concrete scene is converted by a
640 x 480 pixmap. -/
theorem conversion_identity_witness :
    exampleState.screenieScene.DistinctRefs ∧
      exampleFilePathModel ∈ exampleState.screenieScene.models ∧
      ∃ created : ScreenieModel,
        (updatePixmapModel exampleEnv examplePixmap exampleFilePathModel
          exampleState).screenieScene.models =
            [examplePixmapModel, exampleTemplateModel, created] ∧
        created.kind = .pixmap examplePixmap ∧
        created.center exampleEnv = exampleFilePathModel.center exampleEnv ∧
        created.rotation = 30 ∧ created.distance = 9 := by
  have hmem : exampleFilePathModel ∈ exampleState.screenieScene.models :=
    List.mem_cons_of_mem _ (List.mem_cons_self _ _)
  obtain ⟨created, h1, _, _, _, h5, h6, h7, h8, _⟩ :=
    conversion_identity exampleEnv exampleState exampleFilePathModel examplePixmap
      (by decide) hmem rfl rfl
  exact ⟨by decide, hmem, created, h1, h5, h6, h7, h8⟩

/-! ## Placement of added images -/

theorem addImagesFilePathsLoop_spec (env : Collaborators) (filePaths : List String)
    (position : QPointF) (d : ScreenieControlPrivate) :
    ∃ created : List ScreenieModel,
      (addImagesFilePathsLoop env filePaths position d).screenieScene.models =
          d.screenieScene.models ++ created ∧
        created.map (fun m => m.kind) = filePaths.map (fun filePath => .filePath filePath none) ∧
        ∀ (i : Nat) (m : ScreenieModel), created[i]? = some m →
          m.position = ⟨position.x + 20 * (i : ℚ) - ((m.getSize env).width : ℚ) / 2,
            position.y + 20 * (i : ℚ) - ((m.getSize env).height : ℚ) / 2⟩ := by
  induction filePaths generalizing position d with
  | nil => exact ⟨[], by simp [addImagesFilePathsLoop], rfl, fun i m h => by simp at h⟩
  | cons filePath rest ih =>
    let screenieModel : ScreenieModel :=
      (applyDefaultValues d (newModel (freshRef d) (.filePath filePath none))).setPosition
        (calculateItemPositionAt env
          (applyDefaultValues d (newModel (freshRef d) (.filePath filePath none))) position)
    obtain ⟨created, h1, h2, h3⟩ := ih ⟨position.x + 20, position.y + 20⟩
      (addModel env d screenieModel)
    refine ⟨screenieModel :: created, ?_, ?_, ?_⟩
    · simp only [addImagesFilePathsLoop]
      rw [h1, addModel_models, List.append_assoc]
      rfl
    · rw [List.map_cons, List.map_cons, h2]
      rfl
    · intro i m hm
      cases i with
      | zero =>
        simp only [List.getElem?_cons_zero, Option.some.injEq] at hm
        subst hm
        simp [screenieModel, calculateItemPositionAt, ScreenieModel.getSize,
          ScreenieModel.setPosition, applyDefaultValues, newModel]
      | succ i =>
        simp only [List.getElem?_cons_succ] at hm
        rw [h3 i m hm]
        simp only [Nat.cast_add, Nat.cast_one, QPointF.mk.injEq]
        constructor <;> ring

theorem addImagesPixmapsLoop_spec (env : Collaborators) (pixmaps : List QPixmap)
    (position : QPointF) (d : ScreenieControlPrivate) :
    ∃ created : List ScreenieModel,
      (addImagesPixmapsLoop env pixmaps position d).screenieScene.models =
          d.screenieScene.models ++ created ∧
        created.map (fun m => m.kind) = pixmaps.map (fun pixmap => .pixmap pixmap) ∧
        ∀ (i : Nat) (m : ScreenieModel), created[i]? = some m →
          m.position = ⟨position.x + 20 * (i : ℚ) - ((m.getSize env).width : ℚ) / 2,
            position.y + 20 * (i : ℚ) - ((m.getSize env).height : ℚ) / 2⟩ := by
  induction pixmaps generalizing position d with
  | nil => exact ⟨[], by simp [addImagesPixmapsLoop], rfl, fun i m h => by simp at h⟩
  | cons pixmap rest ih =>
    let screenieModel : ScreenieModel :=
      (applyDefaultValues d (newModel (freshRef d) (.pixmap pixmap))).setPosition
        (calculateItemPositionAt env
          (applyDefaultValues d (newModel (freshRef d) (.pixmap pixmap))) position)
    obtain ⟨created, h1, h2, h3⟩ := ih ⟨position.x + 20, position.y + 20⟩
      (addModel env d screenieModel)
    refine ⟨screenieModel :: created, ?_, ?_, ?_⟩
    · simp only [addImagesPixmapsLoop]
      rw [h1, addModel_models, List.append_assoc]
      rfl
    · rw [List.map_cons, List.map_cons, h2]
      rfl
    · intro i m hm
      cases i with
      | zero =>
        simp only [List.getElem?_cons_zero, Option.some.injEq] at hm
        subst hm
        simp [screenieModel, calculateItemPositionAt, ScreenieModel.getSize,
          ScreenieModel.setPosition, applyDefaultValues, newModel]
      | succ i =>
        simp only [List.getElem?_cons_succ] at hm
        rw [h3 i m hm]
        simp only [Nat.cast_add, Nat.cast_one, QPointF.mk.injEq]
        constructor <;> ring

theorem addImagesFilePathsLoopDouble_spec (env : Collaborators) (filePaths : List String)
    (position : QPointF) (d : ScreenieControlPrivate) :
    ∃ created : List ScreenieModel,
      (addImagesFilePathsLoopDouble env filePaths position d).screenieScene.models =
          d.screenieScene.models ++ created ∧
        created.map (fun m => m.kind) =
          filePaths.map (fun filePath => .filePath filePath none) := by
  induction filePaths generalizing position d with
  | nil => exact ⟨[], by simp [addImagesFilePathsLoopDouble], rfl⟩
  | cons filePath rest ih =>
    let screenieModel : ScreenieModel :=
      (applyDefaultValues d (newModel (freshRef d) (.filePath filePath none))).setPosition
        (calculateItemPositionAtDouble env
          (applyDefaultValues d (newModel (freshRef d) (.filePath filePath none))) position)
    obtain ⟨created, h1, h2⟩ :=
      ih ⟨roundToDouble (position.x + 20), roundToDouble (position.y + 20)⟩
        (addModel env d screenieModel)
    refine ⟨screenieModel :: created, ?_, ?_⟩
    · simp only [addImagesFilePathsLoopDouble]
      rw [h1, addModel_models, List.append_assoc]
      rfl
    · rw [List.map_cons, List.map_cons, h2]
      rfl

theorem addImagesPixmapsLoopDouble_spec (env : Collaborators) (pixmaps : List QPixmap)
    (position : QPointF) (d : ScreenieControlPrivate) :
    ∃ created : List ScreenieModel,
      (addImagesPixmapsLoopDouble env pixmaps position d).screenieScene.models =
          d.screenieScene.models ++ created ∧
        created.map (fun m => m.kind) = pixmaps.map (fun pixmap => .pixmap pixmap) := by
  induction pixmaps generalizing position d with
  | nil => exact ⟨[], by simp [addImagesPixmapsLoopDouble], rfl⟩
  | cons pixmap rest ih =>
    let screenieModel : ScreenieModel :=
      (applyDefaultValues d (newModel (freshRef d) (.pixmap pixmap))).setPosition
        (calculateItemPositionAtDouble env
          (applyDefaultValues d (newModel (freshRef d) (.pixmap pixmap))) position)
    obtain ⟨created, h1, h2⟩ :=
      ih ⟨roundToDouble (position.x + 20), roundToDouble (position.y + 20)⟩
        (addModel env d screenieModel)
    refine ⟨screenieModel :: created, ?_, ?_⟩
    · simp only [addImagesPixmapsLoopDouble]
      rw [h1, addModel_models, List.append_assoc]
      rfl
    · rw [List.map_cons, List.map_cons, h2]
      rfl

theorem center_of_position (env : Collaborators) (m : ScreenieModel) (cx cy : ℚ)
    (h : m.position = ⟨cx - ((m.getSize env).width : ℚ) / 2,
      cy - ((m.getSize env).height : ℚ) / 2⟩) : m.center env = ⟨cx, cy⟩ := by
  simp [ScreenieModel.center, boxCenter, h]

/-- C6 as amended (addImages placement, positions in exact arithmetic): addImages,
for file paths and for pixmaps, appends to the scene exactly one model per input,
in input order and of the input's variant; with the positions computed in exact
arithmetic the i-th of them, of size (w, h), is at
(c.x + 20 i - w/2, c.y + 20 i - h/2), so that its centre is c shifted by
(20 i, 20 i), and the centre of the first is c.  Evaluated in double, as the code
does, addImages appends the same models in the same order, the positions being
the rounded ones. -/
theorem addImages_placement (env : Collaborators) (d : ScreenieControlPrivate)
    (centerPosition : QPointF) :
    (∀ filePaths : List String, ∃ created : List ScreenieModel,
      (addImagesFilePaths env filePaths centerPosition d).screenieScene.models =
          d.screenieScene.models ++ created ∧
        created.length = filePaths.length ∧
        created.map (fun m => m.kind) = filePaths.map (fun filePath => .filePath filePath none) ∧
        (∀ (i : Nat) (m : ScreenieModel), created[i]? = some m →
          m.position = ⟨centerPosition.x + 20 * (i : ℚ) - ((m.getSize env).width : ℚ) / 2,
            centerPosition.y + 20 * (i : ℚ) - ((m.getSize env).height : ℚ) / 2⟩ ∧
          m.center env = ⟨centerPosition.x + 20 * (i : ℚ), centerPosition.y + 20 * (i : ℚ)⟩) ∧
        (∀ m : ScreenieModel, created[0]? = some m → m.center env = centerPosition)) ∧
    (∀ pixmaps : List QPixmap, ∃ created : List ScreenieModel,
      (addImagesPixmaps env pixmaps centerPosition d).screenieScene.models =
          d.screenieScene.models ++ created ∧
        created.length = pixmaps.length ∧
        created.map (fun m => m.kind) = pixmaps.map (fun pixmap => .pixmap pixmap) ∧
        (∀ (i : Nat) (m : ScreenieModel), created[i]? = some m →
          m.position = ⟨centerPosition.x + 20 * (i : ℚ) - ((m.getSize env).width : ℚ) / 2,
            centerPosition.y + 20 * (i : ℚ) - ((m.getSize env).height : ℚ) / 2⟩ ∧
          m.center env = ⟨centerPosition.x + 20 * (i : ℚ), centerPosition.y + 20 * (i : ℚ)⟩) ∧
        (∀ m : ScreenieModel, created[0]? = some m → m.center env = centerPosition)) ∧
    (∀ filePaths : List String, ∃ created : List ScreenieModel,
      (addImagesFilePathsDouble env filePaths centerPosition d).screenieScene.models =
          d.screenieScene.models ++ created ∧
        created.length = filePaths.length ∧
        created.map (fun m => m.kind) =
          filePaths.map (fun filePath => .filePath filePath none)) ∧
    (∀ pixmaps : List QPixmap, ∃ created : List ScreenieModel,
      (addImagesPixmapsDouble env pixmaps centerPosition d).screenieScene.models =
          d.screenieScene.models ++ created ∧
        created.length = pixmaps.length ∧
        created.map (fun m => m.kind) = pixmaps.map (fun pixmap => .pixmap pixmap)) := by
  refine ⟨?_, ?_, ?_, ?_⟩
  rotate_left 2
  · intro filePaths
    obtain ⟨created, h1, h2⟩ := addImagesFilePathsLoopDouble_spec env filePaths centerPosition d
    refine ⟨created, h1, ?_, h2⟩
    have := congrArg List.length h2
    simpa using this
  · intro pixmaps
    obtain ⟨created, h1, h2⟩ := addImagesPixmapsLoopDouble_spec env pixmaps centerPosition d
    refine ⟨created, h1, ?_, h2⟩
    have := congrArg List.length h2
    simpa using this
  · intro filePaths
    obtain ⟨created, h1, h2, h3⟩ := addImagesFilePathsLoop_spec env filePaths centerPosition d
    refine ⟨created, h1, ?_, h2, fun i m hm => ⟨h3 i m hm, ?_⟩, fun m hm => ?_⟩
    · have := congrArg List.length h2
      simpa using this
    · exact center_of_position env m _ _ (by rw [h3 i m hm])
    · have := center_of_position env m (centerPosition.x + 20 * ((0 : Nat) : ℚ))
        (centerPosition.y + 20 * ((0 : Nat) : ℚ)) (by rw [h3 0 m hm])
      simpa using this
  · intro pixmaps
    obtain ⟨created, h1, h2, h3⟩ := addImagesPixmapsLoop_spec env pixmaps centerPosition d
    refine ⟨created, h1, ?_, h2, fun i m hm => ⟨h3 i m hm, ?_⟩, fun m hm => ?_⟩
    · have := congrArg List.length h2
      simpa using this
    · exact center_of_position env m _ _ (by rw [h3 i m hm])
    · have := center_of_position env m (centerPosition.x + 20 * ((0 : Nat) : ℚ))
        (centerPosition.y + 20 * ((0 : Nat) : ℚ)) (by rw [h3 0 m hm])
      simpa using this

/-! ## Render quality and the quality timer -/

theorem setRenderQuality_low (d : ScreenieControlPrivate) :
    LowQuality (setRenderQuality .Low d) ∧
      (setRenderQuality .Low d).qualityTimer = d.qualityTimer ∧
      (setRenderQuality .Low d).screenieScene = d.screenieScene := by
  refine ⟨⟨?_, ?_⟩, rfl, rfl⟩
  · intro item hitem
    simp only [getScreeniePixmapItems, setRenderQuality, List.mem_filter, List.mem_map] at hitem
    obtain ⟨⟨a, _, ha⟩, hp⟩ := hitem
    by_cases hpa : a.isScreeniePixmapItem = true
    · rw [if_pos hpa] at ha
      rw [← ha]
    · rw [if_neg hpa] at ha
      rw [ha] at hpa
      exact absurd hp hpa
  · intro hints hmem
    simp only [setRenderQuality, List.mem_map] at hmem
    obtain ⟨_, _, h⟩ := hmem
    exact h.symm

theorem setRenderQuality_high (d : ScreenieControlPrivate) :
    HighQuality (setRenderQuality .High d) ∧
      (setRenderQuality .High d).qualityTimer = d.qualityTimer ∧
      (setRenderQuality .High d).screenieScene = d.screenieScene := by
  refine ⟨⟨?_, ?_⟩, rfl, rfl⟩
  · intro item hitem
    simp only [getScreeniePixmapItems, setRenderQuality, List.mem_filter, List.mem_map] at hitem
    obtain ⟨⟨a, _, ha⟩, hp⟩ := hitem
    by_cases hpa : a.isScreeniePixmapItem = true
    · rw [if_pos hpa] at ha
      rw [← ha]
    · rw [if_neg hpa] at ha
      rw [ha] at hpa
      exact absurd hp hpa
  · intro hints hmem
    simp only [setRenderQuality, List.mem_map] at hmem
    obtain ⟨_, _, h⟩ := hmem
    exact h.symm

theorem LowQuality_of_sublist (d s : ScreenieControlPrivate)
    (hitems : s.screenieGraphicsScene.items.Sublist d.screenieGraphicsScene.items)
    (hviews : s.screenieGraphicsScene.views = d.screenieGraphicsScene.views)
    (hlow : LowQuality d) : LowQuality s := by
  refine ⟨fun item hitem => hlow.1 item ?_, fun hints hmem => hlow.2 hints (hviews ▸ hmem)⟩
  exact (hitems.filter _).subset hitem

theorem handleDistanceChanged_low (d : ScreenieControlPrivate) (hlow : LowQuality d) :
    LowQuality (handleDistanceChanged d) := by
  have hmap : (handleDistanceChanged d).screenieGraphicsScene.items.map
      (fun item => (item.isScreeniePixmapItem, item.transformationMode)) =
      d.screenieGraphicsScene.items.map
        (fun item => (item.isScreeniePixmapItem, item.transformationMode)) :=
    assignZValues_map (fun item => (item.isScreeniePixmapItem, item.transformationMode))
      (fun _ _ => rfl) _ _ _
  refine ⟨?_, hlow.2⟩
  intro item hitem
  have hmem := (List.mem_filter.mp hitem).1
  have hp := (List.mem_filter.mp hitem).2
  have h1 : (item.isScreeniePixmapItem, item.transformationMode) ∈
      d.screenieGraphicsScene.items.map
        (fun item => (item.isScreeniePixmapItem, item.transformationMode)) := by
    rw [← hmap]
    exact List.mem_map_of_mem
      (fun item : GraphicsItem => (item.isScreeniePixmapItem, item.transformationMode)) hmem
  obtain ⟨a, ha, haeq⟩ := List.mem_map.mp h1
  have h2 := Prod.mk.inj haeq
  rw [← h2.2]
  exact hlow.1 a (List.mem_filter.mpr ⟨ha, by rw [h2.1]; exact hp⟩)

theorem writeDistance_low (ref : Nat) (f : Int → Int) (d : ScreenieControlPrivate) :
    (LowQuality d → LowQuality (writeDistance ref f d)) ∧
      (writeDistance ref f d).qualityTimer = d.qualityTimer := by
  unfold writeDistance
  simp only
  split
  · exact ⟨fun h => h, rfl⟩
  · exact ⟨fun h => handleDistanceChanged_low _ h, rfl⟩

theorem removeModel_low (d : ScreenieControlPrivate) (ref : Nat) :
    (LowQuality d → LowQuality (removeModel d ref)) ∧
      (removeModel d ref).qualityTimer = d.qualityTimer := by
  unfold removeModel
  split
  · exact ⟨fun h => LowQuality_of_sublist d _ (List.eraseP_sublist _) rfl h, rfl⟩
  · exact ⟨fun h => h, rfl⟩

theorem modifyModel_low (ref : Nat) (f : ScreenieModel → ScreenieModel)
    (d : ScreenieControlPrivate) :
    (LowQuality d → LowQuality (modifyModel ref f d)) ∧
      (modifyModel ref f d).qualityTimer = d.qualityTimer :=
  ⟨fun h => h, rfl⟩

theorem foldl_low (step : ScreenieControlPrivate → Nat → ScreenieControlPrivate)
    (hstep : ∀ d ref, (LowQuality d → LowQuality (step d ref)) ∧
      (step d ref).qualityTimer = d.qualityTimer)
    (refs : List Nat) (d : ScreenieControlPrivate) :
    (LowQuality d → LowQuality (refs.foldl step d)) ∧
      (refs.foldl step d).qualityTimer = d.qualityTimer := by
  induction refs generalizing d with
  | nil => exact ⟨fun h => h, rfl⟩
  | cons ref rest ih =>
    have h1 := hstep d ref
    have h2 := ih (step d ref)
    exact ⟨fun h => h2.1 (h1.1 h), h2.2.trans h1.2⟩

theorem startQualityTimer_low (d : ScreenieControlPrivate) (hlow : LowQuality d) :
    LowQuality (startQualityTimer d) := hlow

/-- Every quality-degrading call leaves the render quality Low and the quality
timer started at the time of the call. -/
theorem ControlCall.run_low (call : ControlCall) (d : ScreenieControlPrivate)
    (hcall : call.decreasesQuality = true) :
    LowQuality (call.run d) ∧ (call.run d).qualityTimer = d.qualityTimer.start := by
  have hlow := setRenderQuality_low d
  have hmodify : ∀ (f : ScreenieModel → ScreenieModel) (refs : List Nat),
      LowQuality (startQualityTimer (forSelected f refs (setRenderQuality .Low d))) ∧
      (startQualityTimer (forSelected f refs (setRenderQuality .Low d))).qualityTimer =
        d.qualityTimer.start := by
    intro f refs
    have h := foldl_low (fun d ref => modifyModel ref f d) (fun d ref => modifyModel_low ref f d)
      refs (setRenderQuality .Low d)
    refine ⟨h.1 hlow.1, ?_⟩
    show (forSelected f refs (setRenderQuality .Low d)).qualityTimer.start = _
    rw [show (forSelected f refs (setRenderQuality .Low d)).qualityTimer =
      (setRenderQuality .Low d).qualityTimer from h.2, hlow.2.1]
  have hdistance : ∀ (f : Int → Int) (refs : List Nat),
      LowQuality (startQualityTimer
        (refs.foldl (fun d ref => writeDistance ref f d) (setRenderQuality .Low d))) ∧
      (startQualityTimer
        (refs.foldl (fun d ref => writeDistance ref f d) (setRenderQuality .Low d))).qualityTimer =
        d.qualityTimer.start := by
    intro f refs
    have h := foldl_low (fun d ref => writeDistance ref f d)
      (fun d ref => writeDistance_low ref f d) refs (setRenderQuality .Low d)
    refine ⟨h.1 hlow.1, ?_⟩
    show (refs.foldl (fun d ref => writeDistance ref f d)
      (setRenderQuality .Low d)).qualityTimer.start = _
    rw [h.2, hlow.2.1]
  cases call with
  | removeAll =>
    have h := foldl_low removeModel removeModel_low
      (getSelectedScreenieModels (setRenderQuality .Low d)) (setRenderQuality .Low d)
    refine ⟨h.1 hlow.1, ?_⟩
    show (List.foldl removeModel (setRenderQuality .Low d)
      (getSelectedScreenieModels (setRenderQuality .Low d))).qualityTimer.start = _
    rw [h.2, hlow.2.1]
  | translate dx dy =>
    have hq : (decide (dx ≠ 0) && decide (dy ≠ 0)) = true := hcall
    have h := foldl_low (fun d ref => modifyModel ref (fun m => m.translate dx dy) d)
      (fun d ref => modifyModel_low ref _ d)
      (getSelectedScreenieModels (startQualityTimer (setRenderQuality .Low d)))
      (startQualityTimer (setRenderQuality .Low d))
    simp only [ControlCall.run, Screenie.translate, hq, if_true]
    exact ⟨h.1 hlow.1, h.2.trans (by rw [startQualityTimer, hlow.2.1])⟩
  | setRotation angle => exact hmodify _ _
  | rotate angle => exact hmodify _ _
  | setDistance distance => exact hdistance _ _
  | addDistance distance => exact hdistance _ _
  | setReflectionEnabled enable => exact hmodify _ _
  | setReflectionOffset reflectionOffset => exact hmodify _ _
  | addReflectionOffset reflectionOffset => exact hmodify _ _
  | setReflectionOpacity reflectionOpacity => exact hmodify _ _
  | addReflectionOpacity reflectionOpacity => exact hmodify _ _

theorem processEvents_timer (t : Nat) (d : ScreenieControlPrivate) :
    (processEvents t d).1.qualityTimer.now = t ∧
      (processEvents t d).1.qualityTimer.interval = d.qualityTimer.interval := by
  unfold processEvents
  split
  · split
    · exact ⟨rfl, rfl⟩
    · exact ⟨rfl, rfl⟩
  · exact ⟨rfl, rfl⟩

theorem processEvents_pending (t deadline : Nat) (d : ScreenieControlPrivate)
    (hdeadline : d.qualityTimer.deadline = some deadline) (ht : t < deadline) :
    (processEvents t d).2 = [] ∧
      (processEvents t d).1.qualityTimer.deadline = some deadline ∧
      (LowQuality d → LowQuality (processEvents t d).1) := by
  unfold processEvents
  rw [hdeadline]
  dsimp only
  rw [if_neg (Nat.not_le_of_lt ht)]
  exact ⟨rfl, hdeadline, fun h => h⟩

theorem processEvents_fire (t deadline : Nat) (d : ScreenieControlPrivate)
    (hdeadline : d.qualityTimer.deadline = some deadline) (ht : deadline ≤ t) :
    (processEvents t d).2 = [deadline] ∧
      (processEvents t d).1.qualityTimer.deadline = none ∧
      HighQuality (processEvents t d).1 := by
  unfold processEvents
  rw [hdeadline]
  dsimp only
  rw [if_pos ht]
  exact ⟨rfl, rfl, (setRenderQuality_high _).1⟩

/-- C9 (quality debounce), with the quality timer as an optional deadline: let two
quality-degrading calls be made at times t1 <= t2 with t2 - t1 < 300 (the timer's
interval), the event loop running in between and afterwards with no other call.
Then from the first call up to the second, and from the second call up to any time
before t2 + 300, the render quality is Low and restoreRenderQuality has not run;
at any time from t2 + 300 on, restoreRenderQuality has run exactly once since the
second call, at t2 + 300, the render quality is High and the timer is stopped. -/
theorem quality_debounce (d : ScreenieControlPrivate) (call1 call2 : ControlCall) (t1 t2 : Nat)
    (hinterval : d.qualityTimer.interval = 300)
    (hcall1 : call1.decreasesQuality = true) (hcall2 : call2.decreasesQuality = true)
    (hle : t1 ≤ t2) (hlt : t2 - t1 < 300) :
    (∀ t, t1 ≤ t → t ≤ t2 →
      LowQuality (processEvents t (call1.run (processEvents t1 d).1)).1 ∧
      (processEvents t (call1.run (processEvents t1 d).1)).2 = []) ∧
    (∀ t, t2 ≤ t → t < t2 + 300 →
      LowQuality (processEvents t
        (call2.run (processEvents t2 (call1.run (processEvents t1 d).1)).1)).1 ∧
      (processEvents t
        (call2.run (processEvents t2 (call1.run (processEvents t1 d).1)).1)).2 = []) ∧
    (∀ t, t2 + 300 ≤ t →
      (processEvents t
        (call2.run (processEvents t2 (call1.run (processEvents t1 d).1)).1)).2 = [t2 + 300] ∧
      HighQuality (processEvents t
        (call2.run (processEvents t2 (call1.run (processEvents t1 d).1)).1)).1 ∧
      (processEvents t
        (call2.run (processEvents t2
          (call1.run (processEvents t1 d).1)).1)).1.qualityTimer.deadline = none) := by
  have hrun1 := ControlCall.run_low call1 (processEvents t1 d).1 hcall1
  have htimer1 := processEvents_timer t1 d
  have hdeadline1 : (call1.run (processEvents t1 d).1).qualityTimer.deadline =
      some (t1 + 300) := by
    rw [hrun1.2, QTimer.start, htimer1.1, htimer1.2, hinterval]
  have hinterval1 : (call1.run (processEvents t1 d).1).qualityTimer.interval = 300 := by
    rw [hrun1.2, QTimer.start, htimer1.2, hinterval]
  have hrun2 := ControlCall.run_low call2
    (processEvents t2 (call1.run (processEvents t1 d).1)).1 hcall2
  have htimer2 := processEvents_timer t2 (call1.run (processEvents t1 d).1)
  have hdeadline2 : (call2.run (processEvents t2
      (call1.run (processEvents t1 d).1)).1).qualityTimer.deadline = some (t2 + 300) := by
    rw [hrun2.2, QTimer.start, htimer2.1, htimer2.2, hinterval1]
  refine ⟨?_, ?_, ?_⟩
  · intro t _ ht
    have h := processEvents_pending t (t1 + 300) _ hdeadline1 (by omega)
    exact ⟨h.2.2 hrun1.1, h.1⟩
  · intro t _ ht
    have h := processEvents_pending t (t2 + 300) _ hdeadline2 ht
    exact ⟨h.2.2 hrun2.1, h.1⟩
  · intro t ht
    have h := processEvents_fire t (t2 + 300) _ hdeadline2 ht
    exact ⟨h.1, h.2.2, h.2.1⟩

/-- Witness of C9: on the concrete scene, setRotation at time 1000 and rotate at
time 1100; at time 1400 restoreRenderQuality has run once, at 1400. -/
theorem quality_debounce_witness :
    exampleState.qualityTimer.interval = 300 ∧
      (ControlCall.setRotation 10).decreasesQuality = true ∧
      (ControlCall.rotate 5).decreasesQuality = true ∧ 1000 ≤ 1100 ∧ 1100 - 1000 < 300 ∧
      (processEvents 1400
        ((ControlCall.rotate 5).run (processEvents 1100
          ((ControlCall.setRotation 10).run (processEvents 1000 exampleState).1)).1)).2 =
        [1400] :=
  ⟨rfl, rfl, rfl, by decide, by decide,
    ((quality_debounce exampleState (.setRotation 10) (.rotate 5) 1000 1100 rfl rfl rfl
      (by decide) (by decide)).2.2 1400 (by decide)).1⟩

/-! ## removeAll -/

theorem selected_eq_filterMap (items : List GraphicsItem) :
    ((items.filter (fun item => item.selected)).filter
      (fun selectedItem => selectedItem.isScreeniePixmapItem)).map
        (fun item => item.screenieModel) =
      (items.map (fun item => (item.selected, item.isScreeniePixmapItem,
        item.screenieModel))).filterMap (fun p => if p.1 && p.2.1 then some p.2.2 else none) := by
  induction items with
  | nil => rfl
  | cons item items ih =>
    by_cases hs : item.selected = true
    · by_cases hp : item.isScreeniePixmapItem = true
      · rw [List.filter_cons_of_pos hs, List.filter_cons_of_pos hp, List.map_cons, List.map_cons,
          List.filterMap_cons_some (b := item.screenieModel) (by simp [hs, hp]), ih]
      · rw [List.filter_cons_of_pos hs, List.filter_cons_of_neg hp, List.map_cons,
          List.filterMap_cons_none (by simp [hp]), ih]
    · rw [List.filter_cons_of_neg hs, List.map_cons,
        List.filterMap_cons_none (by simp [hs]), ih]

theorem getSelectedScreenieModels_setRenderQuality (quality : RenderQuality)
    (d : ScreenieControlPrivate) :
    getSelectedScreenieModels (setRenderQuality quality d) = getSelectedScreenieModels d := by
  simp only [getSelectedScreenieModels, selected_eq_filterMap]
  congr 1
  cases quality <;>
  · simp only [setRenderQuality, List.map_map]
    apply List.map_congr_left
    intro item _
    simp only [Function.comp]
    split <;> rfl

theorem foldl_removeModel_scene (refs : List Nat) (d : ScreenieControlPrivate)
    (hdistinct : d.screenieScene.DistinctRefs) :
    (refs.foldl removeModel d).screenieScene =
      { d.screenieScene with
        models := d.screenieScene.models.filter (fun m => decide (m.ref ∉ refs)) } := by
  induction refs generalizing d with
  | nil => simp
  | cons ref rest ih =>
    have hmodels := removeModel_models d ref
    rw [eraseP_ref_eq_filter _ _ hdistinct] at hmodels
    have hscene : (removeModel d ref).screenieScene =
        { d.screenieScene with
          models := d.screenieScene.models.filter (fun m => !(m.ref == ref)) } := by
      rw [← hmodels]
      unfold removeModel
      split <;> rfl
    have hnext : (removeModel d ref).screenieScene.DistinctRefs := by
      unfold ScreenieScene.DistinctRefs
      rw [hmodels]
      exact hdistinct.sublist ((List.filter_sublist _).map _)
    rw [List.foldl_cons, ih _ hnext, hscene]
    simp only [List.filter_filter, ScreenieScene.mk.injEq, and_true]
    apply List.filter_congr
    intro m _
    by_cases h : m.ref = ref <;> simp [h]

/-- C10 (removeAll): removeAll() takes out of the scene model exactly the models
whose address is the back-reference of a selected ScreeniePixmapItem, keeps every
other model, in place and unchanged, and keeps the background attributes (for a
scene whose models have distinct addresses); with an empty selection the scene
model is unchanged; in every case the render quality is Low afterwards and the
quality timer is running, with its deadline one interval after the call. -/
theorem removeAll_selected (d : ScreenieControlPrivate) :
    (d.screenieScene.DistinctRefs →
      (removeAll d).screenieScene =
        { d.screenieScene with
          models := d.screenieScene.models.filter
            (fun m => decide (m.ref ∉ getSelectedScreenieModels d)) }) ∧
      (getSelectedScreenieModels d = [] → (removeAll d).screenieScene = d.screenieScene) ∧
      LowQuality (removeAll d) ∧
      (removeAll d).qualityTimer.deadline =
        some (d.qualityTimer.now + d.qualityTimer.interval) := by
  have hlow := ControlCall.run_low .removeAll d rfl
  have hsel := getSelectedScreenieModels_setRenderQuality .Low d
  refine ⟨?_, ?_, hlow.1, ?_⟩
  · intro hdistinct
    have h := foldl_removeModel_scene (getSelectedScreenieModels (setRenderQuality .Low d))
      (setRenderQuality .Low d) hdistinct
    rw [← hsel]
    exact h
  · intro hempty
    show (List.foldl removeModel (setRenderQuality .Low d)
      (getSelectedScreenieModels (setRenderQuality .Low d))).screenieScene = _
    rw [hsel, hempty]
    rfl
  · have h : (removeAll d).qualityTimer = d.qualityTimer.start := hlow.2
    rw [h]
    rfl

/-- Witness of C10: in the concrete scene the items of the models at addresses 1
and 3 are selected; removeAll leaves the model at address 2. -/
theorem removeAll_selected_witness :
    exampleState.screenieScene.DistinctRefs ∧
      (removeAll exampleState).screenieScene.models = [exampleFilePathModel] ∧
      (removeAll exampleState).qualityTimer.deadline = some 1300 :=
  ⟨by decide, congrArg ScreenieScene.models ((removeAll_selected exampleState).1 (by decide)),
    (removeAll_selected exampleState).2.2.2⟩

/-! ## Where the code departs from the specification -/

/-- C7 (addTemplate placement), what the code does: addTemplate(c) appends one
template of 400 x 400 and puts its position, the top-left corner, at c; the
template's centre is at (c.x + 200, c.y + 200), not at c. -/
theorem addTemplate_top_left (env : Collaborators) (d : ScreenieControlPrivate)
    (centerPosition : QPointF) :
    ∃ created : ScreenieModel,
      (addTemplate env centerPosition d).screenieScene.models =
          d.screenieScene.models ++ [created] ∧
        created.isTemplateModel = true ∧
        created.getSize env = ⟨400, 400⟩ ∧
        created.position = centerPosition ∧
        created.center env = ⟨centerPosition.x + 200, centerPosition.y + 200⟩ ∧
        created.center env ≠ centerPosition := by
  refine ⟨_, rfl, rfl, rfl, rfl, ?_, ?_⟩
  · simp only [ScreenieModel.center, boxCenter, ScreenieModel.getSize, applyDefaultValues,
      ScreenieModel.setPosition, newModel, QPointF.mk.injEq]
    constructor <;> norm_num
  · intro h
    have hx := congrArg QPointF.x h
    simp only [ScreenieModel.center, boxCenter, ScreenieModel.getSize, applyDefaultValues,
      ScreenieModel.setPosition, newModel] at hx
    norm_num at hx

/-- C8 (null pixmap), what the code does: addImage with the null pixmap appends a
pixmap model holding the null pixmap to the scene and a ScreeniePixmapItem for it
to the graphics scene; only updatePixmapModel skips a null pixmap. -/
theorem addImage_null_pixmap (env : Collaborators) (d : ScreenieControlPrivate)
    (centerPosition : QPointF) :
    (∃ created : ScreenieModel,
      (addImagePixmap env QPixmap.null centerPosition d).screenieScene.models =
          d.screenieScene.models ++ [created] ∧
        created.kind = .pixmap QPixmap.null ∧
        itemBackReferences (addImagePixmap env QPixmap.null centerPosition d) =
          itemBackReferences d ++ [created.ref]) ∧
      (addImagesPixmaps env [QPixmap.null, QPixmap.null] centerPosition
        d).screenieScene.models.length = d.screenieScene.models.length + 2 ∧
      ∀ target : ScreenieModel, updatePixmapModel env QPixmap.null target d = d := by
  refine ⟨⟨_, rfl, rfl, ?_⟩, ?_, fun target => updatePixmapModel_of_isNull env _ target d rfl⟩
  · exact addModel_backReferences env d _
  · obtain ⟨created, h1, h2, _⟩ :=
      addImagesPixmapsLoop_spec env [QPixmap.null, QPixmap.null] centerPosition d
    have hlen := congrArg List.length h2
    simp only [List.length_map, List.length_cons, List.length_nil] at hlen
    show (addImagesPixmapsLoop env [QPixmap.null, QPixmap.null] centerPosition
      d).screenieScene.models.length = _
    rw [h1, List.length_append, hlen]

/-! ## translate -/

theorem forSelected_frame (f : ScreenieModel → ScreenieModel) (refs : List Nat)
    (d : ScreenieControlPrivate) :
    (forSelected f refs d).screenieGraphicsScene = d.screenieGraphicsScene ∧
      (forSelected f refs d).qualityTimer = d.qualityTimer ∧
      (forSelected f refs d).screenieScene.backgroundEnabled =
        d.screenieScene.backgroundEnabled ∧
      (forSelected f refs d).screenieScene.backgroundColor = d.screenieScene.backgroundColor := by
  unfold forSelected
  induction refs generalizing d with
  | nil => exact ⟨rfl, rfl, rfl, rfl⟩
  | cons ref rest ih =>
    have h := ih (modifyModel ref f d)
    exact ⟨h.1, h.2.1, h.2.2.1, h.2.2.2⟩

theorem forSelected_models (f : ScreenieModel → ScreenieModel) (hf : ∀ m, (f m).ref = m.ref)
    (refs : List Nat) (d : ScreenieControlPrivate) (hnodup : refs.Nodup) :
    (forSelected f refs d).screenieScene.models =
      d.screenieScene.models.map (fun m => if m.ref ∈ refs then f m else m) := by
  unfold forSelected
  induction refs generalizing d with
  | nil => simp
  | cons ref rest ih =>
    rw [List.nodup_cons] at hnodup
    rw [List.foldl_cons, ih _ hnodup.2, modifyModel_models, List.map_map]
    apply List.map_congr_left
    intro m _
    simp only [Function.comp, List.mem_cons]
    by_cases h : m.ref = ref
    · have hnot : (f m).ref ∉ rest := by rw [hf, h]; exact hnodup.1
      simp [h, hnot]
    · simp [h]

theorem getSelectedScreenieModels_nodup (d : ScreenieControlPrivate) (hinv : OneToOne d) :
    (getSelectedScreenieModels d).Nodup := by
  have hsub : (getSelectedScreenieModels d).Sublist (itemBackReferences d) :=
    ((List.filter_sublist _).filter _).map _
  exact ((hinv.1.nodup_iff).mpr hinv.2).sublist hsub

/-- C11 (translate gating): translate(dx, dy) with dx != 0 and dy != 0 leaves the
render quality Low and the quality timer started at the time of the call; with
dx = 0 or dy = 0 it leaves the graphics scene, hence the render quality, and the
timer as they were.  In both cases the scene model afterwards is the one of before
with every model whose address is the back-reference of a selected
ScreeniePixmapItem moved by (dx, dy) and every other model unchanged (the selected
items back-referencing distinct models, as they do in every state in which items
and models correspond one to one), and the background attributes are kept. -/
theorem translate_gating (dx dy : ℚ) (d : ScreenieControlPrivate) :
    (dx ≠ 0 ∧ dy ≠ 0 →
      LowQuality (translate dx dy d) ∧
      (translate dx dy d).screenieGraphicsScene =
        (setRenderQuality .Low d).screenieGraphicsScene ∧
      (translate dx dy d).qualityTimer = d.qualityTimer.start) ∧
    (dx = 0 ∨ dy = 0 →
      (translate dx dy d).screenieGraphicsScene = d.screenieGraphicsScene ∧
      (translate dx dy d).qualityTimer = d.qualityTimer) ∧
    ((getSelectedScreenieModels d).Nodup →
      (translate dx dy d).screenieScene.models =
        d.screenieScene.models.map (fun m =>
          if m.ref ∈ getSelectedScreenieModels d then
            { m with position := ⟨m.position.x + dx, m.position.y + dy⟩ }
          else m)) ∧
    (OneToOne d → (getSelectedScreenieModels d).Nodup) ∧
    (translate dx dy d).screenieScene.backgroundEnabled = d.screenieScene.backgroundEnabled ∧
    (translate dx dy d).screenieScene.backgroundColor = d.screenieScene.backgroundColor := by
  by_cases hq : dx ≠ 0 ∧ dy ≠ 0
  · have hdec : (decide (dx ≠ 0) && decide (dy ≠ 0)) = true := by simp [hq.1, hq.2]
    have htr : translate dx dy d =
        forSelected (fun m => m.translate dx dy) (getSelectedScreenieModels d)
          (startQualityTimer (setRenderQuality .Low d)) := by
      simp only [translate, hdec, if_true]
      rw [show getSelectedScreenieModels (startQualityTimer (setRenderQuality .Low d)) =
        getSelectedScreenieModels (setRenderQuality .Low d) from rfl,
        getSelectedScreenieModels_setRenderQuality]
    have hframe := forSelected_frame (fun m => m.translate dx dy) (getSelectedScreenieModels d)
      (startQualityTimer (setRenderQuality .Low d))
    refine ⟨fun _ => ⟨(ControlCall.run_low (.translate dx dy) d hdec).1, ?_, ?_⟩, ?_, ?_,
      getSelectedScreenieModels_nodup d, ?_, ?_⟩
    · rw [htr, hframe.1]; rfl
    · rw [htr, hframe.2.1]; rfl
    · intro h
      rcases h with h | h
      · exact absurd h hq.1
      · exact absurd h hq.2
    · intro hnodup
      rw [htr, forSelected_models (fun m => m.translate dx dy) (fun _ => rfl) _ _ hnodup]
      rfl
    · rw [htr, hframe.2.2.1]; rfl
    · rw [htr, hframe.2.2.2]; rfl
  · have hdec : (decide (dx ≠ 0) && decide (dy ≠ 0)) = false := by
      by_cases hx : dx = 0
      · simp [hx]
      · have hy : dy = 0 := by
          by_contra hy
          exact hq ⟨hx, hy⟩
        simp [hy]
    have htr : translate dx dy d =
        forSelected (fun m => m.translate dx dy) (getSelectedScreenieModels d) d := by
      simp only [translate, hdec, Bool.false_eq_true, if_false]
    have hframe := forSelected_frame (fun m => m.translate dx dy) (getSelectedScreenieModels d) d
    refine ⟨fun h => absurd h hq, fun _ => ⟨?_, ?_⟩, ?_, getSelectedScreenieModels_nodup d,
      ?_, ?_⟩
    · rw [htr, hframe.1]
    · rw [htr, hframe.2.1]
    · intro hnodup
      rw [htr, forSelected_models (fun m => m.translate dx dy) (fun _ => rfl) _ _ hnodup]
      rfl
    · rw [htr, hframe.2.2.1]
    · rw [htr, hframe.2.2.2]

/-- Witness of C11: on the concrete scene, whose selected items back-reference the
models at addresses 1 and 3, translate(3, 4) ends with quality Low and the timer
due at 1300, and translate(3, 0) leaves the timer stopped. -/
theorem translate_gating_witness :
    ((3 : ℚ) ≠ 0 ∧ (4 : ℚ) ≠ 0) ∧ ((3 : ℚ) = 0 ∨ (0 : ℚ) = 0) ∧
      (getSelectedScreenieModels exampleState).Nodup ∧
      LowQuality (translate 3 4 exampleState) ∧
      (translate 3 4 exampleState).qualityTimer.deadline = some 1300 ∧
      (translate 3 0 exampleState).qualityTimer.deadline = none ∧
      (translate 3 4 exampleState).screenieScene.models =
        exampleState.screenieScene.models.map (fun m =>
          if m.ref ∈ getSelectedScreenieModels exampleState then
            { m with position := ⟨m.position.x + 3, m.position.y + 4⟩ }
          else m) :=
  ⟨⟨by norm_num, by norm_num⟩, Or.inr rfl, by decide,
    ((translate_gating 3 4 exampleState).1 ⟨by norm_num, by norm_num⟩).1,
    congrArg QTimer.deadline
      ((translate_gating 3 4 exampleState).1 ⟨by norm_num, by norm_num⟩).2.2,
    congrArg QTimer.deadline ((translate_gating 3 0 exampleState).2.1 (Or.inr rfl)).2,
    (translate_gating 3 4 exampleState).2.2.1 (by decide)⟩

/-! ## handleModelRemoved -/

/-- C12, the claim as stated fails: in the concrete scene no item back-references
address 99, and handleModelRemoved on that address does not abort; it returns, with
the state, the item list included, as it was. -/
theorem handleModelRemoved_unmatched_returns :
    (∀ item ∈ exampleState.screenieGraphicsScene.items,
      ¬(item.isScreeniePixmapItem = true ∧ item.screenieModel = 99)) ∧
      handleModelRemovedOutcome exampleState 99 = some exampleState ∧
      handleModelRemovedOutcome exampleState 99 ≠ none :=
  ⟨by decide, rfl, fun h => Option.noConfusion h⟩

/-- C12 as amended: handleModelRemoved always returns.  When no ScreeniePixmapItem
back-references the removed model the state, the item list included, is left as it
was; when one does, exactly the first such item in the scene's item list is taken
out, every other item stays, in place and unchanged, and nothing else in the
state changes. -/
theorem handleModelRemoved_first_match (d : ScreenieControlPrivate) (screenieModel : Nat) :
    ((∀ item ∈ d.screenieGraphicsScene.items,
        ¬(item.isScreeniePixmapItem = true ∧ item.screenieModel = screenieModel)) →
      handleModelRemovedOutcome d screenieModel = some d) ∧
    (∀ (before after : List GraphicsItem) (item : GraphicsItem),
      d.screenieGraphicsScene.items = before ++ item :: after →
      item.isScreeniePixmapItem = true → item.screenieModel = screenieModel →
      (∀ other ∈ before,
        ¬(other.isScreeniePixmapItem = true ∧ other.screenieModel = screenieModel)) →
      handleModelRemovedOutcome d screenieModel =
        some { d with screenieGraphicsScene.items := before ++ after }) := by
  constructor
  · intro hnone
    have herase : d.screenieGraphicsScene.items.eraseP (fun graphicsItem =>
        graphicsItem.isScreeniePixmapItem && graphicsItem.screenieModel == screenieModel) =
        d.screenieGraphicsScene.items := by
      apply List.eraseP_of_forall_not
      intro item hitem hp
      apply hnone item hitem
      simpa using hp
    simp only [handleModelRemovedOutcome, handleModelRemoved, herase]
  · intro before after item hitems hpixmap hmodel hbefore
    have herase : d.screenieGraphicsScene.items.eraseP (fun graphicsItem =>
        graphicsItem.isScreeniePixmapItem && graphicsItem.screenieModel == screenieModel) =
        before ++ after := by
      rw [hitems, List.eraseP_append_right]
      · rw [List.eraseP_cons_of_pos]
        simp [hpixmap, hmodel]
      · intro other hother hp
        apply hbefore other hother
        simpa using hp
    simp only [handleModelRemovedOutcome, handleModelRemoved, herase]

/-- Witness of C12 as amended: in the concrete scene the item of the model at
address 2 is the second of three; handleModelRemoved takes out that item alone. -/
theorem handleModelRemoved_first_match_witness :
    handleModelRemovedOutcome exampleState 2 =
      some { exampleState with
        screenieGraphicsScene.items :=
          [exampleItem examplePixmapModel true] ++ [exampleItem exampleTemplateModel true] } :=
  (handleModelRemoved_first_match exampleState 2).2 [exampleItem examplePixmapModel true]
    [exampleItem exampleTemplateModel true] (exampleItem exampleFilePathModel false) rfl rfl rfl
    (by decide)

/-! ## Rounding to double -/

theorem ulpExponent_eq (q : ℚ) (k : ℤ) (hlo : (2 : ℚ) ^ k ≤ |q|)
    (hhi : |q| < (2 : ℚ) ^ (k + 1)) (hk : -1022 ≤ k) : ulpExponent q = k - 52 := by
  have hpos : 0 < |q| := lt_of_lt_of_le (zpow_pos (by norm_num) k) hlo
  have h1 : k ≤ Int.log 2 |q| :=
    (Int.zpow_le_iff_le_log (by norm_num) hpos).mp (by exact_mod_cast hlo)
  have h2 : Int.log 2 |q| < k + 1 :=
    (Int.lt_zpow_iff_log_lt (by norm_num) hpos).mp (by exact_mod_cast hhi)
  have h3 : Int.log 2 |q| = k := by omega
  unfold ulpExponent
  rw [h3, max_eq_left hk]

theorem roundHalfEven_of_near (x : ℚ) (n : ℤ) (h : |x - n| < 1 / 2) : roundHalfEven x = n := by
  rw [abs_lt] at h
  by_cases hx : (n : ℚ) ≤ x
  · have hfloor : ⌊x⌋ = n := Int.floor_eq_iff.mpr ⟨hx, by linarith⟩
    unfold roundHalfEven
    rw [hfloor, if_pos (by linarith)]
  · have hfloor : ⌊x⌋ = n - 1 :=
      Int.floor_eq_iff.mpr ⟨by push_cast; linarith, by push_cast; linarith⟩
    unfold roundHalfEven
    rw [hfloor, if_neg (by push_cast; linarith), if_pos (by push_cast; linarith)]
    ring

theorem roundHalfEven_of_tie (x : ℚ) (n : ℤ) (h : x = n + 1 / 2) :
    roundHalfEven x = if n % 2 = 0 then n else n + 1 := by
  have hfloor : ⌊x⌋ = n := Int.floor_eq_iff.mpr ⟨by linarith, by linarith⟩
  unfold roundHalfEven
  rw [hfloor, if_neg (by linarith), if_neg (by linarith)]

/-- A result within half a unit in the last place of the double `n * 2^(k-52)`
rounds to it. -/
theorem roundToDouble_of_near (q : ℚ) (k n : ℤ) (hlo : (2 : ℚ) ^ k ≤ |q|)
    (hhi : |q| < (2 : ℚ) ^ (k + 1)) (hk : -1022 ≤ k)
    (hnear : |q / 2 ^ (k - 52) - n| < 1 / 2) : roundToDouble q = n * 2 ^ (k - 52) := by
  unfold roundToDouble
  rw [ulpExponent_eq q k hlo hhi hk, roundHalfEven_of_near _ n hnear]

/-- A result half way between two doubles rounds to the one with the even
significand. -/
theorem roundToDouble_of_tie (q : ℚ) (k n : ℤ) (hlo : (2 : ℚ) ^ k ≤ |q|)
    (hhi : |q| < (2 : ℚ) ^ (k + 1)) (hk : -1022 ≤ k)
    (htie : q / 2 ^ (k - 52) = n + 1 / 2) :
    roundToDouble q = ((if n % 2 = 0 then n else n + 1 : ℤ) : ℚ) * 2 ^ (k - 52) := by
  unfold roundToDouble
  rw [ulpExponent_eq q k hlo hhi hk, roundHalfEven_of_tie _ n htie]

theorem roundToDouble_half : roundToDouble (1 / 2) = 1 / 2 := by
  rw [roundToDouble_of_near (1 / 2) (-1) (2 ^ 52) (by rw [abs_of_pos (by norm_num)]; norm_num)
    (by rw [abs_of_pos (by norm_num)]; norm_num) (by norm_num) (by norm_num)]
  norm_num

theorem roundToDouble_30 : roundToDouble 30 = 30 := by
  rw [roundToDouble_of_near 30 4 (30 * 2 ^ 48) (by rw [abs_of_pos (by norm_num)]; norm_num)
    (by rw [abs_of_pos (by norm_num)]; norm_num) (by norm_num) (by norm_num)]
  norm_num

theorem roundToDouble_240 : roundToDouble 240 = 240 := by
  rw [roundToDouble_of_near 240 7 (240 * 2 ^ 45) (by rw [abs_of_pos (by norm_num)]; norm_num)
    (by rw [abs_of_pos (by norm_num)]; norm_num) (by norm_num) (by norm_num)]
  norm_num

/-- In double, 0.1 - 0.5 lies half way between two doubles and rounds to
-3602879701896397 / 2^53. -/
theorem roundToDouble_tenth_sub_half :
    roundToDouble ((3602879701896397 : ℚ) / 2 ^ 55 - 1 / 2) =
      -(3602879701896397 : ℚ) / 2 ^ 53 := by
  rw [roundToDouble_of_tie _ (-2) (-7205759403792794)
    (by rw [abs_of_neg (by norm_num)]; norm_num)
    (by rw [abs_of_neg (by norm_num)]; norm_num) (by norm_num) (by norm_num)]
  norm_num

/-- In double, 40.3 + 30 is exact. -/
theorem roundToDouble_fortyPointThree_add_30 :
    roundToDouble ((2835860390359859 : ℚ) / 2 ^ 46 + 30) = (4946922715689779 : ℚ) / 2 ^ 46 := by
  rw [roundToDouble_of_near _ 6 4946922715689779
    (by rw [abs_of_pos (by norm_num)]; norm_num)
    (by rw [abs_of_pos (by norm_num)]; norm_num) (by norm_num) (by norm_num)]
  norm_num

/-- In double, 70.3 - 240 lies half way between two doubles and rounds to
-2985393971737395 / 2^44. -/
theorem roundToDouble_sub_240 :
    roundToDouble ((4946922715689779 : ℚ) / 2 ^ 46 - 240) =
      -(2985393971737395 : ℚ) / 2 ^ 44 := by
  rw [roundToDouble_of_tie _ 7 (-5970787943474791)
    (by rw [abs_of_neg (by norm_num)]; norm_num)
    (by rw [abs_of_neg (by norm_num)]; norm_num) (by norm_num) (by norm_num)]
  norm_num

/-! ## The centre in the code's double arithmetic -/

theorem calculateItemPositionAtDouble_onePixel_x :
    roundToDouble (exampleTenth - roundToDouble (((1 : ℤ) : ℚ) / 2)) =
      -(3602879701896397 : ℚ) / 2 ^ 53 := by
  have h : (((1 : ℤ) : ℚ) / 2) = 1 / 2 := by norm_num
  rw [h, roundToDouble_half]
  exact roundToDouble_tenth_sub_half

theorem calculateItemPositionDouble_offGrid_y :
    roundToDouble (roundToDouble (exampleFortyPointThree + roundToDouble (((60 : ℤ) : ℚ) / 2)) -
      roundToDouble (((480 : ℤ) : ℚ) / 2)) = -(2985393971737395 : ℚ) / 2 ^ 44 := by
  have h60 : (((60 : ℤ) : ℚ) / 2) = 30 := by norm_num
  have h480 : (((480 : ℤ) : ℚ) / 2) = 240 := by norm_num
  rw [h60, h480, roundToDouble_30, roundToDouble_240]
  unfold exampleFortyPointThree
  rw [roundToDouble_fortyPointThree_add_30]
  exact roundToDouble_sub_240

/-- C5, the claim as stated fails in the code's arithmetic: the file-path model of
the concrete scene, 500 x 60 at (300, 40.3), is converted by updatePixmapModel with
a 640 x 480 pixmap; evaluated in double as lines 450-451 are, the new model's
position has y = -2985393971737395 / 2^44 (70.3 - 240 rounds), so its centre has
y = 4946922715689780 / 2^46 where the target's has 4946922715689779 / 2^46: the
centre has moved. -/
theorem conversion_identity_double :
    exampleOffGridModel ∈ exampleOffGridState.screenieScene.models ∧
      exampleOffGridModel.isFilePathModel = true ∧ examplePixmap.isNull = false ∧
      ∃ created : ScreenieModel,
        (updatePixmapModelDouble exampleEnv examplePixmap exampleOffGridModel
          exampleOffGridState).screenieScene.models =
            [examplePixmapModel, exampleTemplateModel, created] ∧
        created.kind = .pixmap examplePixmap ∧
        created.position.y = -(2985393971737395 : ℚ) / 2 ^ 44 ∧
        (created.center exampleEnv).y = (4946922715689780 : ℚ) / 2 ^ 46 ∧
        (exampleOffGridModel.center exampleEnv).y = (4946922715689779 : ℚ) / 2 ^ 46 ∧
        created.center exampleEnv ≠ exampleOffGridModel.center exampleEnv := by
  refine ⟨List.mem_cons_of_mem _ (List.mem_cons_self _ _), rfl, rfl, _, rfl, rfl, ?_, ?_, ?_, ?_⟩
  · exact calculateItemPositionDouble_offGrid_y
  · show roundToDouble (roundToDouble (exampleFortyPointThree +
        roundToDouble (((60 : ℤ) : ℚ) / 2)) - roundToDouble (((480 : ℤ) : ℚ) / 2)) +
        ((480 : ℤ) : ℚ) / 2 = _
    rw [calculateItemPositionDouble_offGrid_y]
    norm_num
  · show exampleFortyPointThree + ((60 : ℤ) : ℚ) / 2 = _
    unfold exampleFortyPointThree
    norm_num
  · intro h
    have hy := congrArg QPointF.y h
    have h1 : roundToDouble (roundToDouble (exampleFortyPointThree +
        roundToDouble (((60 : ℤ) : ℚ) / 2)) - roundToDouble (((480 : ℤ) : ℚ) / 2)) +
        ((480 : ℤ) : ℚ) / 2 = exampleFortyPointThree + ((60 : ℤ) : ℚ) / 2 := hy
    rw [calculateItemPositionDouble_offGrid_y] at h1
    unfold exampleFortyPointThree at h1
    norm_num at h1

/-- C6, the claim as stated fails in the code's arithmetic: addImages with one
1 x 1 pixmap and centerPosition (0.1, 0.2) on the concrete scene; evaluated in
double as lines 428-429 are, 0.1 - 0.5 rounds and the new model is at
x = -3602879701896397 / 2^53, which is not 0.1 + 20 * 0 - 1/2, and its centre has
x = 900719925474099 / 2^53 (0.09999999999999998), which is not 0.1: the centre of
the first model is not centerPosition. -/
theorem addImages_placement_double :
    ∃ created : ScreenieModel,
      (addImagesPixmapsDouble exampleEnv [exampleOnePixel] ⟨exampleTenth, 2 * exampleTenth⟩
        exampleState).screenieScene.models = exampleState.screenieScene.models ++ [created] ∧
      created.kind = .pixmap exampleOnePixel ∧
      created.getSize exampleEnv = ⟨1, 1⟩ ∧
      created.position.x = -(3602879701896397 : ℚ) / 2 ^ 53 ∧
      created.position.x ≠ exampleTenth + 20 * ((0 : Nat) : ℚ) - ((1 : ℤ) : ℚ) / 2 ∧
      (created.center exampleEnv).x = (900719925474099 : ℚ) / 2 ^ 53 ∧
      created.center exampleEnv ≠ ⟨exampleTenth, 2 * exampleTenth⟩ := by
  refine ⟨_, rfl, rfl, rfl, ?_, ?_, ?_, ?_⟩
  · exact calculateItemPositionAtDouble_onePixel_x
  · show roundToDouble (exampleTenth - roundToDouble (((1 : ℤ) : ℚ) / 2)) ≠ _
    rw [calculateItemPositionAtDouble_onePixel_x]
    unfold exampleTenth
    norm_num
  · show roundToDouble (exampleTenth - roundToDouble (((1 : ℤ) : ℚ) / 2)) +
        ((1 : ℤ) : ℚ) / 2 = _
    rw [calculateItemPositionAtDouble_onePixel_x]
    norm_num
  · intro h
    have hx := congrArg QPointF.x h
    have h1 : roundToDouble (exampleTenth - roundToDouble (((1 : ℤ) : ℚ) / 2)) +
        ((1 : ℤ) : ℚ) / 2 = exampleTenth := hx
    rw [calculateItemPositionAtDouble_onePixel_x] at h1
    unfold exampleTenth at h1
    norm_num at h1

end Screenie
